import Mathlib

/-!
# baxter_pick_place: `block_pick_place.cpp`

A shallow embedding of `baxter_pick_place::SimplePickPlace`
(`src/baxter_pick_place/src/block_pick_place.cpp`) and the properties of its
pick/place orchestration.

* Messages (`Pose`, `Grasp`, `PlaceLocation`, ...) are structures with the
  fields of the ROS messages the source fills in.
* Coordinates and distances are `double`s that the source only copies (the one
  sum `y += 0.2` apart); they are rationals here.  The distances of a
  `GripperTranslation` are `float32`: storing a `double` there rounds it.
* The loop variable `angle` of `place` is a `double` on which the source does
  arithmetic and comparisons; it is modelled bit-exactly as a natural number
  of units of `2^-52`, with round-to-nearest-even to 53 significant bits.
* The collaborators (ROS runtime, MoveIt, the grasp generator, the operator at
  `std::cin`, the clock) are an `Env` of answer functions, indexed by how many
  times each has been asked; the calls made to them are recorded, in order, in
  the `trace` of the `World`.
* The sine and cosine that Eigen takes from the math library for
  `AngleAxis(angle, UnitZ)` are answers of the `Env` as well: `double`s, hence
  rationals, that the theorems compare with the real sine and cosine.
* `ROS_*_STREAM_NAMED` log lines are not modelled.
-/

namespace baxter_pick_place

/-! ## Messages -/

/-- The type `geometry_msgs::Point`. -/
structure Point where
  x : ℚ
  y : ℚ
  z : ℚ
deriving DecidableEq, Repr

/-- The type `geometry_msgs::Quaternion`. -/
structure Quaternion where
  x : ℚ
  y : ℚ
  z : ℚ
  w : ℚ
deriving DecidableEq, Repr

/-- The type `geometry_msgs::Pose`. -/
structure Pose where
  position : Point
  orientation : Quaternion
deriving DecidableEq, Repr

/-- The type `geometry_msgs::Vector3`. -/
structure Vector3 where
  x : ℚ
  y : ℚ
  z : ℚ
deriving DecidableEq, Repr

/-- The type `std_msgs::Header` (the fields the source writes). -/
structure Header where
  stamp : Nat
  frame_id : String
deriving DecidableEq, Repr

/-- The type `geometry_msgs::PoseStamped`. -/
structure PoseStamped where
  header : Header
  pose : Pose
deriving DecidableEq, Repr

/-- The type `geometry_msgs::Vector3Stamped`. -/
structure Vector3Stamped where
  header : Header
  vector : Vector3
deriving DecidableEq, Repr

/-- A value of a `float32` field of a message: a finite number or an infinity. -/
inductive Float32 where
  | finite (value : ℚ)
  | infinite (negative : Bool)
deriving DecidableEq, Repr

/-- The type `manipulation_msgs::GripperTranslation`; its two distances are
declared `float32` in `GripperTranslation.msg`. -/
structure GripperTranslation where
  direction : Vector3Stamped
  desired_distance : Float32
  min_distance : Float32
deriving DecidableEq, Repr

/-- The type `sensor_msgs::JointState`, as joint name / position pairs. -/
abbrev JointState := List (String × ℚ)

/-- The type `manipulation_msgs::Grasp`. -/
structure Grasp where
  id : String
  pre_grasp_posture : JointState
  grasp_posture : JointState
  grasp_pose : PoseStamped
  grasp_quality : ℚ
  approach : GripperTranslation
  retreat : GripperTranslation
  max_contact_force : ℚ
  allowed_touch_objects : List String
deriving DecidableEq, Repr

/-- The type `manipulation_msgs::PlaceLocation`. -/
structure PlaceLocation where
  place_pose : PoseStamped
  approach : GripperTranslation
  retreat : GripperTranslation
  post_place_posture : JointState
deriving DecidableEq, Repr

/-- The members of `block_grasp_generator::RobotGraspData` that the source reads. -/
structure RobotGraspData where
  approach_retreat_desired_dist_ : ℚ
  approach_retreat_min_dist_ : ℚ
  base_link_ : String
  pre_grasp_posture_ : JointState
deriving DecidableEq, Repr

/-- The struct `MetaBlock` (lines 63-68). -/
structure MetaBlock where
  name : String
  start_pose : Pose
  goal_pose : Pose
deriving DecidableEq, Repr

/-! ## The `double` arithmetic of `place`

The loop of `place` (line 338) runs `angle` from `0` in steps of `M_PI/2`
while `angle < 2*M_PI`.  Every value involved is a non-negative multiple of
`2^-52`, so a `double` is represented by that multiple. -/

/-- Round-to-nearest, ties-to-even, of `n * 2^-52` to 53 significant bits. -/
@[irreducible]
def roundToDouble (n : Nat) : Nat :=
  let e := Nat.log2 n - 52
  let q := n / 2 ^ e
  let r := n % 2 ^ e
  if 2 * r < 2 ^ e then q * 2 ^ e
  else if 2 ^ e < 2 * r then (q + 1) * 2 ^ e
  else if q % 2 = 0 then q * 2 ^ e
  else (q + 1) * 2 ^ e

/-- The constant `M_PI` of `<cmath>`: the double `0x400921FB54442D18`, that is
`0x1921FB54442D18 * 2^-51`. -/
def M_PI : Nat := 2 * 0x1921FB54442D18

/-- The double sum `a + b`. -/
def dadd (a b : Nat) : Nat := roundToDouble (a + b)

/-- The double quotient `a / 2` (for the even `a` it is used on). -/
def dhalf (a : Nat) : Nat := roundToDouble (a / 2)

/-- The double product `2 * a`. -/
def dtwice (a : Nat) : Nat := roundToDouble (2 * a)

/-! ## The narrowing of a `double` to a `float32` field

The assignments of lines 361-362 and 372-373 store the `double` members of
`grasp_data_` into `float32` fields: the value is rounded to nearest, ties to
even, to 24 significant bits. -/

/-- The `float32` nearest to `x` when the leading bit of `x` has exponent `e`
(`-126` for the subnormal numbers): a multiple of `2^(e-23)`, or an infinity
when the rounded value reaches `2^128`. -/
def roundFloat32 (x : ℚ) (e : ℤ) : Float32 :=
  let ulp : ℚ := 2 ^ (e - 23)
  let q : ℤ := ⌊|x| / ulp⌋
  let r : ℚ := |x| / ulp - q
  let n : ℤ :=
    if r < 1 / 2 then q else if 1 / 2 < r then q + 1 else if q % 2 = 0 then q else q + 1
  if (2 : ℚ) ^ (128 : ℤ) ≤ n * ulp then Float32.infinite (decide (x < 0))
  else Float32.finite (if x < 0 then -(n * ulp) else n * ulp)

/-- The conversion of the `double` `x` to `float32`. -/
def toFloat32 (x : ℚ) : Float32 :=
  if x = 0 then Float32.finite 0 else roundFloat32 x (max (Int.log 2 |x|) (-126))

/-! ## Constants, collaborators and the world -/

/-- Constants and loaders of `baxter_data.h` and `custom_environment.h`, which
are not part of `block_pick_place.cpp`. -/
structure BaxterData where
  BLOCK_SIZE : ℚ
  BASE_LINK : String
  SUPPORT_SURFACE3_NAME : String
  /-- The value of `getTableHeight(FLOOR_TO_BASE_HEIGHT)`. -/
  tableHeight : ℚ
  /-- The value of `loadRobotGraspData(BLOCK_SIZE)`. -/
  graspData : RobotGraspData
deriving DecidableEq, Repr

/-- The data members of `SimplePickPlace` that the member functions read. -/
structure SimplePickPlace where
  data : BaxterData
  grasp_data_ : RobotGraspData
  auto_reset_ : Bool
  auto_reset_sec_ : Int
deriving DecidableEq, Repr

/-- A call made to a collaborator, with its arguments (and its answer when it
has one that the source reads). -/
inductive Event where
  /-- The poll `ros::ok()`. -/
  | rosOk (answer : Bool)
  /-- The call `ros::Duration(sec).sleep()`. -/
  | sleep (sec : Int)
  /-- The extraction `std::cin >> input`. -/
  | cinRead (input : Char)
  | enableBaxter (answer : Bool)
  | disableBaxter
  /-- The call `rviz_tools_->setMuted(b)`. -/
  | setMuted (b : Bool)
  /-- The call `createEnvironment(rviz_tools_)`. -/
  | createEnvironment
  /-- The call `rviz_tools_->cleanupACO(name)`. -/
  | cleanupACO (name : String)
  /-- The call `rviz_tools_->cleanupCO(name)`. -/
  | cleanupCO (name : String)
  /-- The call `rviz_tools_->publishCollisionBlock(pose, name, BLOCK_SIZE)`. -/
  | publishCollisionBlock (pose : Pose) (name : String) (size : ℚ)
  /-- The call `rviz_tools_->publishBlock(pose, BLOCK_SIZE, goal)`. -/
  | publishBlock (pose : Pose) (size : ℚ) (goal : Bool)
  /-- The call `block_grasp_generator_->generateGrasps(pose, grasp_data_, grasps)`. -/
  | generateGrasps (pose : Pose) (data : RobotGraspData)
  /-- The call `move_group_->setSupportSurfaceName(name)`. -/
  | setSupportSurfaceName (name : String)
  /-- The call `move_group_->setPlannerId(id)`. -/
  | setPlannerId (id : String)
  /-- The call `move_group_->pick(name, grasps)`. -/
  | movePick (name : String) (grasps : List Grasp) (answer : Bool)
  /-- The call `move_group_->place(name, locations)`. -/
  | movePlace (name : String) (locations : List PlaceLocation) (answer : Bool)
  /-- The call `move_group_->setPlanningTime(seconds)`. -/
  | setPlanningTime (seconds : ℚ)
  /-- The call `ros::shutdown()` of `main`. -/
  | rosShutdown
  /-- The call `exit(code)`. -/
  | exit (code : Int)
deriving DecidableEq, Repr

/-- The collaborators: what each answers the `i`-th time it is asked. -/
structure Env where
  /-- The answers of `ros::ok()`. -/
  ok : Nat → Bool
  /-- The readings of `ros::Time::now()`. -/
  now : Nat → Nat
  /-- The characters extracted from `std::cin`. -/
  cin : Nat → Char
  /-- The answer of `baxter_util_.enableBaxter()`. -/
  enableBaxter : Bool
  /-- The grasps that `generateGrasps` puts into the (empty) vector. -/
  generateGrasps : Nat → Pose → RobotGraspData → List Grasp
  /-- The answers of `move_group_->pick`. -/
  movePick : Nat → String → List Grasp → Bool
  /-- The answers of `move_group_->place`. -/
  movePlace : Nat → String → List PlaceLocation → Bool
  /-- The double `sin(angle/2)` computed by Eigen for `AngleAxis(angle, UnitZ)`,
  for the `angle` of `a` units of `2^-52`: the sine of the math library at
  `a / 2^53`. -/
  sinHalf : Nat → ℚ
  /-- The double `cos(angle/2)` computed by Eigen for `AngleAxis(angle, UnitZ)`,
  for the `angle` of `a` units of `2^-52`: the cosine of the math library at
  `a / 2^53`. -/
  cosHalf : Nat → ℚ

/-- How often each collaborator has been asked, and every call made so far. -/
structure World where
  okPolls : Nat
  clockReads : Nat
  cinReads : Nat
  genCalls : Nat
  pickCalls : Nat
  placeCalls : Nat
  trace : List Event
deriving DecidableEq, Repr

/-- The world before the first call. -/
def World.init : World :=
  { okPolls := 0, clockReads := 0, cinReads := 0, genCalls := 0, pickCalls := 0,
    placeCalls := 0, trace := [] }

/-- Record a call. -/
def World.emit (w : World) (e : Event) : World :=
  { w with trace := w.trace ++ [e] }

/-- The poll `ros::ok()`. -/
def rosOk (env : Env) (w : World) : Bool × World :=
  (env.ok w.okPolls,
   { w with okPolls := w.okPolls + 1, trace := w.trace ++ [Event.rosOk (env.ok w.okPolls)] })

/-- The reading `ros::Time::now()`. -/
def timeNow (env : Env) (w : World) : Nat × World :=
  (env.now w.clockReads, { w with clockReads := w.clockReads + 1 })

/-- The quaternion `Eigen::Quaterniond(Eigen::AngleAxis<double>(angle, UnitZ))`:
`w = cos(angle/2)` and `(x, y, z) = sin(angle/2) * (0, 0, 1)`. -/
def quatAboutZ (env : Env) (angle : Nat) : Quaternion :=
  { x := 0, y := 0, z := env.sinHalf angle, w := env.cosHalf angle }

/-! ## The member functions -/

/-- The function `resetBlock` (lines 259-269). -/
def resetBlock (self : SimplePickPlace) (block : MetaBlock) (w : World) : World :=
  ((w.emit (Event.cleanupACO block.name)).emit (Event.cleanupCO block.name)).emit
    (Event.publishCollisionBlock block.start_pose block.name self.data.BLOCK_SIZE)

/-- The function `createStartBlock` (lines 271-290); `goal_pose` keeps the
zeros of the message constructor. -/
def createStartBlock (data : BaxterData) (env : Env) (x y : ℚ) (name : String) : MetaBlock :=
  { name := name
    start_pose :=
      { position := { x := x, y := y, z := data.tableHeight }
        orientation :=
          { x := (quatAboutZ env 0).x, y := (quatAboutZ env 0).y, z := (quatAboutZ env 0).z,
            w := (quatAboutZ env 0).w } }
    goal_pose :=
      { position := { x := 0, y := 0, z := 0 }, orientation := { x := 0, y := 0, z := 0, w := 0 } } }

/-- The list `allowed_touch_objects` built in `pick` (lines 307-311). -/
def allowed_touch_objects : List String := ["Block1", "Block2", "Block3", "Block4"]

/-- The function `pick` (lines 292-323). -/
def pick (self : SimplePickPlace) (env : Env) (block_pose : Pose) (block_name : String)
    (w : World) : Bool × World :=
  let generated := env.generateGrasps w.genCalls block_pose self.grasp_data_
  let w1 : World :=
    { w with genCalls := w.genCalls + 1
             trace := w.trace ++ [Event.generateGrasps block_pose self.grasp_data_] }
  let w2 := w1.emit (Event.setSupportSurfaceName self.data.SUPPORT_SURFACE3_NAME)
  let grasps := generated.map fun g => { g with allowed_touch_objects := allowed_touch_objects }
  let answer := env.movePick w2.pickCalls block_name grasps
  (answer,
   { w2 with pickCalls := w2.pickCalls + 1
             trace := w2.trace ++ [Event.movePick block_name grasps answer] })

/-- The body of the loop of `place` (lines 340-383) for one `angle`: the place
location it pushes. -/
def placeLocation (self : SimplePickPlace) (env : Env) (header : Header)
    (goal_block_pose : Pose) (angle : Nat) (w : World) : PlaceLocation × World :=
  let quat := quatAboutZ env angle
  let pose : Pose :=
    { goal_block_pose with
      orientation := { x := quat.x, y := quat.y, z := quat.z, w := quat.w } }
  let w1 := w.emit (Event.publishBlock pose self.data.BLOCK_SIZE true)
  let t1 := timeNow env w1
  let gripper_approach : GripperTranslation :=
    { direction :=
        { header := { stamp := t1.1, frame_id := self.grasp_data_.base_link_ }
          vector := { x := 0, y := 0, z := -1 } }
      desired_distance := toFloat32 self.grasp_data_.approach_retreat_desired_dist_
      min_distance := toFloat32 self.grasp_data_.approach_retreat_min_dist_ }
  let t2 := timeNow env t1.2
  let gripper_retreat : GripperTranslation :=
    { direction :=
        { header := { stamp := t2.1, frame_id := self.grasp_data_.base_link_ }
          vector := { x := 0, y := 0, z := 1 } }
      desired_distance := toFloat32 self.grasp_data_.approach_retreat_desired_dist_
      min_distance := toFloat32 self.grasp_data_.approach_retreat_min_dist_ }
  ({ place_pose := { header := header, pose := pose }
     approach := gripper_approach
     retreat := gripper_retreat
     post_place_posture := self.grasp_data_.pre_grasp_posture_ },
   t2.2)

/-! ## Facts about the `double` model

They come before `placeLoop`, whose termination rests on them. -/

theorem log2_eq_of_bounds (n k : Nat) (h1 : 2 ^ k ≤ n) (h2 : n < 2 ^ (k + 1)) :
    Nat.log2 n = k := by
  have h0 : n ≠ 0 := by
    have : 0 < 2 ^ k := Nat.pow_pos (by norm_num)
    omega
  have ha : Nat.log2 n < k + 1 := (Nat.log2_lt h0).2 h2
  have hb : k ≤ Nat.log2 n := (Nat.le_log2 h0).2 h1
  omega

theorem roundToDouble_small {n : Nat} (h : n < 2 ^ 53) : roundToDouble n = n := by
  have he : Nat.log2 n - 52 = 0 := by
    by_cases h0 : n = 0
    · subst h0; simp [Nat.log2]
    · have := (Nat.log2_lt h0).2 h
      omega
  simp [roundToDouble, he, Nat.mod_one]

theorem roundToDouble_ge (n : Nat) (h : n < 2 ^ 56) : n ≤ roundToDouble n + 7 := by
  have he : Nat.log2 n - 52 ≤ 3 := by
    by_cases h0 : n = 0
    · subst h0; simp [Nat.log2]
    · have := (Nat.log2_lt h0).2 h
      omega
  unfold roundToDouble
  generalize Nat.log2 n - 52 = e at he
  have hp : 2 ^ e ≤ 8 := by
    calc 2 ^ e ≤ 2 ^ 3 := Nat.pow_le_pow_right (by norm_num) he
      _ = 8 := by norm_num
  have hpos : 0 < 2 ^ e := Nat.pow_pos (by norm_num)
  have hr : n % 2 ^ e < 2 ^ e := Nat.mod_lt _ hpos
  have hd : 2 ^ e * (n / 2 ^ e) + n % 2 ^ e = n := Nat.div_add_mod n (2 ^ e)
  have hq : n ≤ n / 2 ^ e * 2 ^ e + 7 := by
    rw [Nat.mul_comm]; omega
  have hq1 : n / 2 ^ e * 2 ^ e ≤ (n / 2 ^ e + 1) * 2 ^ e :=
    Nat.mul_le_mul_right _ (Nat.le_succ _)
  simp only []
  split_ifs <;> omega

theorem dhalf_M_PI : dhalf M_PI = 0x1921FB54442D18 := by
  rw [dhalf, roundToDouble_small]
  · norm_num [M_PI]
  · norm_num [M_PI]

theorem dtwice_M_PI : dtwice M_PI = 4 * 0x1921FB54442D18 := by
  rw [dtwice, roundToDouble, log2_eq_of_bounds _ 54] <;> norm_num [M_PI]

/-- The double `M_PI/2`, in units of `2^-52`. -/
theorem dadd_quarter_0 : dadd 0 (dhalf M_PI) = 0x1921FB54442D18 := by
  rw [dhalf_M_PI, dadd, roundToDouble_small]
  norm_num

theorem dadd_quarter_1 : dadd 0x1921FB54442D18 (dhalf M_PI) = 2 * 0x1921FB54442D18 := by
  rw [dhalf_M_PI, dadd, roundToDouble, log2_eq_of_bounds _ 53] <;> norm_num

theorem dadd_quarter_2 :
    dadd (2 * 0x1921FB54442D18) (dhalf M_PI) = 3 * 0x1921FB54442D18 := by
  rw [dhalf_M_PI, dadd, roundToDouble, log2_eq_of_bounds _ 54] <;> norm_num

theorem dadd_quarter_3 :
    dadd (3 * 0x1921FB54442D18) (dhalf M_PI) = 4 * 0x1921FB54442D18 := by
  rw [dhalf_M_PI, dadd, roundToDouble, log2_eq_of_bounds _ 54] <;> norm_num

/-- The double sum `angle + M_PI/2` is above `angle` as long as the loop of
`place` runs. -/
theorem angle_lt_next (angle : Nat) (h : angle < dtwice M_PI) :
    dtwice M_PI - dadd angle (dhalf M_PI) < dtwice M_PI - angle := by
  rw [dtwice_M_PI] at h ⊢
  rw [dhalf_M_PI, dadd]
  have := roundToDouble_ge (angle + 0x1921FB54442D18) (by norm_num at h ⊢; omega)
  norm_num at h this ⊢
  omega

/-- The loop of `place` (line 338):
`for (double angle = 0; angle < 2*M_PI; angle += M_PI/2)`, from the current
`angle` on. -/
def placeLoop (self : SimplePickPlace) (env : Env) (header : Header) (goal_block_pose : Pose)
    (angle : Nat) (w : World) (place_locations : List PlaceLocation) :
    List PlaceLocation × World :=
  if _ : angle < dtwice M_PI then
    let r := placeLocation self env header goal_block_pose angle w
    placeLoop self env header goal_block_pose (dadd angle (dhalf M_PI)) r.2
      (place_locations ++ [r.1])
  else (place_locations, w)
termination_by dtwice M_PI - angle
decreasing_by exact angle_lt_next angle (by assumption)

/-- The function `place` (lines 325-392). -/
def place (self : SimplePickPlace) (env : Env) (goal_block_pose : Pose) (block_name : String)
    (w : World) : Bool × World :=
  let t0 := timeNow env w
  let header : Header := { stamp := t0.1, frame_id := self.data.BASE_LINK }
  let r := placeLoop self env header goal_block_pose 0 t0.2 []
  let w1 := r.2.emit (Event.setSupportSurfaceName self.data.SUPPORT_SURFACE3_NAME)
  let w2 := w1.emit (Event.setPlannerId "RRTConnectkConfigDefault")
  let answer := env.movePlace w2.placeCalls block_name r.1
  (answer,
   { w2 with placeCalls := w2.placeCalls + 1
             trace := w2.trace ++ [Event.movePlace block_name r.1 answer] })

/-- The four place locations of the angles `0`, `M_PI/2`, `M_PI`, `3*M_PI/2`,
from the world `place` is called in: the list that the loop of `place` builds
(theorem `place_eq`). -/
def placeLocations (self : SimplePickPlace) (env : Env) (goal_block_pose : Pose) (w : World) :
    List PlaceLocation :=
  let header : Header := { stamp := (timeNow env w).1, frame_id := self.data.BASE_LINK }
  let r0 := placeLocation self env header goal_block_pose 0 (timeNow env w).2
  let r1 := placeLocation self env header goal_block_pose 0x1921FB54442D18 r0.2
  let r2 := placeLocation self env header goal_block_pose (2 * 0x1921FB54442D18) r1.2
  let r3 := placeLocation self env header goal_block_pose (3 * 0x1921FB54442D18) r2.2
  [r0.1, r1.1, r2.1, r3.1]

/-- The function `promptUser` (lines 394-414). -/
def promptUser (self : SimplePickPlace) (env : Env) (w : World) : Bool × World :=
  let r := rosOk env w
  if !r.1 then (false, r.2)
  else if self.auto_reset_ then (true, r.2.emit (Event.sleep self.auto_reset_sec_))
  else
    let input := env.cin r.2.cinReads
    let w1 : World :=
      { r.2 with cinReads := r.2.cinReads + 1, trace := r.2.trace ++ [Event.cinRead input] }
    if input = 'n' then (false, w1) else (true, w1)

/-- The blocks built at the head of `startRoutine` (lines 137-148). -/
def startBlocks (data : BaxterData) (env : Env) : List MetaBlock :=
  [createStartBlock data env (55 / 100) (-4 / 10) "Block1",
   createStartBlock data env (65 / 100) (-4 / 10) "Block2",
   createStartBlock data env (75 / 100) (-4 / 10) "Block3"].map fun b =>
    { b with
      goal_pose :=
        { b.start_pose with
          position := { b.start_pose.position with y := b.start_pose.position.y + 2 / 10 } } }

/-- The loop "Re-add all blocks" (lines 167-170). -/
def resetAll (self : SimplePickPlace) : List MetaBlock → World → World
  | [], w => w
  | block :: rest, w => resetAll self rest (resetBlock self block w)

/-! ## The control flow of the constructor and `startRoutine`

The loops of `startRoutine` never end by themselves (auto mode retries for
ever), so the routine is a transition system: a control point of the source
and the world, and one `step` from a control point to the next one. -/

/-- The control points. -/
inductive PC where
  /-- Entry of the constructor `SimplePickPlace()` (line 92). -/
  | start
  /-- The test of `while(ros::ok())`, line 158. -/
  | outerLoop
  /-- The test `block_id < blocks.size()` of line 173 followed by the test of
  the pick loop `while(ros::ok())`, line 176. -/
  | pickLoop (block_id : Nat)
  /-- The test of the place loop `while(ros::ok())`, line 202. -/
  | placeLoop (block_id : Nat)
  /-- The question "should we repeat", line 247. -/
  | askRepeat
  /-- The routine `startRoutine` has returned `true` (line 256). -/
  | returned
  /-- The function `main` has returned. -/
  | finished
  /-- The process has ended in `exit(0)`. -/
  | exited
deriving DecidableEq, Repr

/-- A control point and the world. -/
structure State where
  pc : PC
  w : World
deriving DecidableEq, Repr

/-- One step: the code from a control point to the next one.  `blocks` is the
vector `blocks` of `startRoutine`. -/
def step (self : SimplePickPlace) (env : Env) (blocks : List MetaBlock) (s : State) : State :=
  match s.pc with
  | PC.start =>
    -- lines 98-116
    let w1 := (s.w.emit (Event.setPlanningTime 30)).emit (Event.sleep 1)
    let w2 := w1.emit (Event.enableBaxter env.enableBaxter)
    if !env.enableBaxter then ⟨PC.finished, w2.emit Event.rosShutdown⟩
    else
      -- lines 119, 151-154
      ⟨PC.outerLoop, (w2.emit (Event.setMuted false)).emit Event.createEnvironment⟩
  | PC.outerLoop =>
    -- lines 158-170
    let r := rosOk env s.w
    if !r.1 then ⟨PC.returned, r.2⟩
    else ⟨PC.pickLoop 0, resetAll self blocks r.2⟩
  | PC.pickLoop block_id =>
    match blocks[block_id]? with
    | none => ⟨PC.askRepeat, s.w⟩
    | some block =>
      -- lines 176-199
      let r := rosOk env s.w
      if !r.1 then ⟨PC.placeLoop block_id, r.2⟩
      else
        let w1 := r.2.emit (Event.publishBlock block.start_pose self.data.BLOCK_SIZE false)
        let p := pick self env block.start_pose block.name w1
        if !p.1 then
          let q := promptUser self env p.2
          if !q.1 then ⟨PC.exited, q.2.emit (Event.exit 0)⟩
          else ⟨PC.pickLoop block_id, resetBlock self block q.2⟩
        else ⟨PC.placeLoop block_id, p.2⟩
  | PC.placeLoop block_id =>
    match blocks[block_id]? with
    | none => ⟨PC.askRepeat, s.w⟩
    | some block =>
      -- lines 202-240
      let r := rosOk env s.w
      if !r.1 then ⟨PC.pickLoop (block_id + 1), r.2⟩
      else
        let w1 := r.2.emit (Event.publishBlock block.goal_pose self.data.BLOCK_SIZE true)
        let p := place self env block.goal_pose block.name w1
        if !p.1 then
          let q := promptUser self env p.2
          if !q.1 then ⟨PC.exited, q.2.emit (Event.exit 0)⟩
          else ⟨PC.placeLoop block_id, q.2⟩
        else ⟨PC.pickLoop (block_id + 1), p.2⟩
  | PC.askRepeat =>
    -- lines 247-249
    let q := promptUser self env s.w
    if !q.1 then ⟨PC.returned, q.2⟩ else ⟨PC.outerLoop, q.2⟩
  | PC.returned =>
    -- line 122, then lines 429-431 of `main`
    ⟨PC.finished, (s.w.emit Event.disableBaxter).emit Event.rosShutdown⟩
  | PC.finished => s
  | PC.exited => s

/-- The state after `n` steps. -/
def run (self : SimplePickPlace) (env : Env) (blocks : List MetaBlock) : Nat → State → State
  | 0, s => s
  | n + 1, s => run self env blocks n (step self env blocks s)

/-- The object that the constructor `SimplePickPlace()` sets up (lines 92-94, 107). -/
def SimplePickPlace.new (data : BaxterData) : SimplePickPlace :=
  { data := data, grasp_data_ := data.graspData, auto_reset_ := true, auto_reset_sec_ := 4 }

/-- The process of `main`, `n` steps on: `baxter_pick_place::SimplePickPlace()`. -/
def main (data : BaxterData) (env : Env) (n : Nat) : State :=
  run (SimplePickPlace.new data) env (startBlocks data env) n ⟨PC.start, World.init⟩

/-- The attempt of the pick loop (lines 178-183) entered in the world `w`: the
poll of the loop test, `publishBlock` of the start pose, then `pick`. -/
def pickAttempt (self : SimplePickPlace) (env : Env) (block : MetaBlock) (w : World) :
    Bool × World :=
  pick self env block.start_pose block.name
    ((rosOk env w).2.emit (Event.publishBlock block.start_pose self.data.BLOCK_SIZE false))

/-- The attempt of the place loop (lines 204-209) entered in the world `w`: the
poll of the loop test, `publishBlock` of the goal pose, then `place`. -/
def placeAttempt (self : SimplePickPlace) (env : Env) (block : MetaBlock) (w : World) :
    Bool × World :=
  place self env block.goal_pose block.name
    ((rosOk env w).2.emit (Event.publishBlock block.goal_pose self.data.BLOCK_SIZE true))

/-! ## Manipulation calls

The calls that change the scene or move the arm, without the data that the
clock and the generator put into them. -/

/-- A manipulation call. -/
inductive Act where
  /-- Remove the attached object `name` (`cleanupACO`). -/
  | removeAttached (name : String)
  /-- Remove the collision object `name` (`cleanupCO`). -/
  | removeCollision (name : String)
  /-- Publish the collision block `name` at `pose` (`publishCollisionBlock`). -/
  | publishCollision (name : String) (pose : Pose)
  /-- Ask the generator for grasps at `pose`: the pose that `pick` is called with. -/
  | generate (pose : Pose)
  /-- The call `move_group_->pick(name, ...)` and its answer. -/
  | pick (name : String) (answer : Bool)
  /-- The call `move_group_->place(name, ...)`, the positions of the place
  locations and the answer. -/
  | place (name : String) (positions : List Point) (answer : Bool)
deriving DecidableEq, Repr

/-- The manipulation call that an event is, if it is one. -/
def Event.act : Event → Option Act
  | Event.cleanupACO name => some (Act.removeAttached name)
  | Event.cleanupCO name => some (Act.removeCollision name)
  | Event.publishCollisionBlock pose name _ => some (Act.publishCollision name pose)
  | Event.generateGrasps pose _ => some (Act.generate pose)
  | Event.movePick name _ answer => some (Act.pick name answer)
  | Event.movePlace name locations answer =>
    some (Act.place name (locations.map fun l => l.place_pose.pose.position) answer)
  | _ => none

/-- The manipulation calls of a trace, in order. -/
def acts (trace : List Event) : List Act := trace.filterMap Event.act

/-- The manipulation calls of one `resetBlock(block)`. -/
def resetActs (block : MetaBlock) : List Act :=
  [Act.removeAttached block.name, Act.removeCollision block.name,
   Act.publishCollision block.name block.start_pose]

/-- The manipulation calls of one `pick(block.start_pose, block.name)`. -/
def pickActs (block : MetaBlock) (answer : Bool) : List Act :=
  [Act.generate block.start_pose, Act.pick block.name answer]

/-- The manipulation calls of one `place(block.goal_pose, block.name)`. -/
def placeActs (block : MetaBlock) (answer : Bool) : List Act :=
  [Act.place block.name (List.replicate 4 block.goal_pose.position) answer]

/-- The manipulation calls of one cycle in which every pick and every place
succeeds at once: all blocks are reset, then each block is picked and placed. -/
def cycleActs (blocks : List MetaBlock) : List Act :=
  blocks.flatMap resetActs ++ blocks.flatMap fun b => pickActs b true ++ placeActs b true

/-! ## The shutdown signal -/

/-- The events of a trace after its first `ros::ok()` that answered `false`
(none when there is no such poll). -/
def afterShutdown : List Event → List Event
  | [] => []
  | Event.rosOk false :: rest => rest
  | _ :: rest => afterShutdown rest

/-- The calls that may still come once `ros::ok()` has answered `false`: more
polls that answer `false`, `exit(0)`, `disableBaxter()` and `ros::shutdown()`. -/
def Event.isQuiet : Event → Bool
  | Event.rosOk false => true
  | Event.exit 0 => true
  | Event.disableBaxter => true
  | Event.rosShutdown => true
  | _ => false

/-- From the world `w` on, `ros::ok()` answers `false`. -/
def Down (env : Env) (w : World) : Prop := ∀ j, w.okPolls ≤ j → env.ok j = false

/-! ## Invariants of the runs

The predicates that the proofs below carry along the steps of a run. -/

/-- The invariant behind C9, on worlds: what follows the first `rosOk false`
is quiet, and once there is one `ros::ok()` goes on answering `false`. -/
def QuietInv (env : Env) (w : World) : Prop :=
  (∀ e ∈ afterShutdown w.trace, e.isQuiet = true) ∧ (Event.rosOk false ∈ w.trace → Down env w)

/-- Where the routine stands in its sequence of manipulation calls. -/
inductive Phase where
  /-- No block is being handled: before the first pick, or after a place that
  succeeded. -/
  | idle
  /-- Grasps have been generated at `pose` for a first attempt to pick. -/
  | generated (pose : Pose)
  /-- A pick of `name` (called at `pose`) has failed; `done` of the five calls
  of the retry (three of the reset, the generation, the pick) have been made. -/
  | retry (name : String) (pose : Pose) (done : Nat)
  /-- The block `name` has been picked. -/
  | picked (name : String)
  /-- A place of `name` at `positions` has failed. -/
  | failedPlace (name : String) (positions : List Point)
deriving DecidableEq, Repr

/-- The phase after a manipulation call, or `none` when the call is out of order. -/
def Phase.next : Phase → Act → Option Phase
  | Phase.idle, Act.removeAttached _ => some Phase.idle
  | Phase.idle, Act.removeCollision _ => some Phase.idle
  | Phase.idle, Act.publishCollision _ _ => some Phase.idle
  | Phase.idle, Act.generate pose => some (Phase.generated pose)
  | Phase.generated _, Act.pick name true => some (Phase.picked name)
  | Phase.generated pose, Act.pick name false => some (Phase.retry name pose 0)
  | Phase.retry name pose 0, Act.removeAttached name' =>
    if name' = name then some (Phase.retry name pose 1) else none
  | Phase.retry name pose 1, Act.removeCollision name' =>
    if name' = name then some (Phase.retry name pose 2) else none
  | Phase.retry name pose 2, Act.publishCollision name' pose' =>
    if name' = name ∧ pose' = pose then some (Phase.retry name pose 3) else none
  | Phase.retry name pose 3, Act.generate pose' =>
    if pose' = pose then some (Phase.retry name pose 4) else none
  | Phase.retry name _ 4, Act.pick name' true =>
    if name' = name then some (Phase.picked name) else none
  | Phase.retry name pose 4, Act.pick name' false =>
    if name' = name then some (Phase.retry name pose 0) else none
  | Phase.picked name, Act.place name' _ true =>
    if name' = name then some Phase.idle else none
  | Phase.picked name, Act.place name' positions false =>
    if name' = name then some (Phase.failedPlace name positions) else none
  | Phase.failedPlace name positions, Act.place name' positions' true =>
    if name' = name ∧ positions' = positions then some Phase.idle else none
  | Phase.failedPlace name positions, Act.place name' positions' false =>
    if name' = name ∧ positions' = positions then some (Phase.failedPlace name positions)
    else none
  | _, _ => none

/-- The phase after a list of manipulation calls, or `none` when one is out of order. -/
def Phase.after : Phase → List Act → Option Phase
  | p, [] => some p
  | p, a :: rest => (p.next a).bind fun q => q.after rest

/-- The phase that goes with a control point, as long as `ros::ok()` has not
answered `false`. -/
def PhaseAt (blocks : List MetaBlock) : PC → Phase → Prop
  | PC.start, q => q = Phase.idle
  | PC.outerLoop, q => q = Phase.idle
  | PC.pickLoop i, q =>
    q = Phase.idle ∨ ∃ b, blocks[i]? = some b ∧ q = Phase.retry b.name b.start_pose 3
  | PC.placeLoop i, q =>
    ∃ b, blocks[i]? = some b ∧
      (q = Phase.picked b.name ∨
        q = Phase.failedPlace b.name (List.replicate 4 b.goal_pose.position))
  | PC.askRepeat, q => q = Phase.idle
  | PC.returned, _ => True
  | PC.finished, _ => True
  | PC.exited, _ => True

/-- The invariant behind C6 and C10: the manipulation calls made so far are in
order, and the phase they lead to goes with the control point. -/
def OrderInv (env : Env) (blocks : List MetaBlock) (s : State) : Prop :=
  QuietInv env s.w ∧ (s.pc = PC.start → Event.rosOk false ∉ s.w.trace) ∧
    ∃ q, Phase.idle.after (acts s.w.trace) = some q ∧
      (Event.rosOk false ∉ s.w.trace → PhaseAt blocks s.pc q)

/-- The calls of a retry after the failed pick, in order. -/
def retryActs (n : String) (p : Pose) (r : Bool) : List Act :=
  [Act.removeAttached n, Act.removeCollision n, Act.publishCollision n p, Act.generate p,
   Act.pick n r]

/-- A call on `move_group_`: a pick or a place. -/
def Act.isMotion : Act → Bool
  | Act.pick _ _ => true
  | Act.place _ _ _ => true
  | _ => false

/-- A pick or a place that failed. -/
def Act.isFailure : Act → Bool
  | Act.pick _ false => true
  | Act.place _ _ false => true
  | _ => false

/-- A place that succeeded: a block brought to its goal. -/
def Act.isCompleted : Act → Bool
  | Act.place _ _ true => true
  | _ => false

/-- The number of picks and places that failed. -/
def failures (trace : List Event) : Nat := ((acts trace).filter Act.isFailure).length

/-- The number of blocks brought to their goal. -/
def completed (trace : List Event) : Nat := ((acts trace).filter Act.isCompleted).length

/-- A bound on the number of steps left when no retry is granted, for `n` blocks. -/
def stepsLeft (n : Nat) : PC → Nat
  | PC.start => 2 * n + 6
  | PC.outerLoop => 2 * n + 5
  | PC.pickLoop i => 2 * (n - i) + 4
  | PC.placeLoop i => 2 * (n - i) + 3
  | PC.askRepeat => 2
  | PC.returned => 1
  | PC.finished => 0
  | PC.exited => 0

/-- How many blocks can have been brought to their goal at a control point of
the first cycle, for `n` blocks. -/
def doneBound (n : Nat) : PC → Nat
  | PC.start => 0
  | PC.outerLoop => 0
  | PC.pickLoop i => min i n
  | PC.placeLoop i => min i n
  | _ => n

/-- The invariant behind the amended C8: no failure unless the process has
exited, one at most then, and no more blocks done than the control point allows. -/
def NoRetryInv (blocks : List MetaBlock) (s : State) : Prop :=
  (s.pc ≠ PC.exited → failures s.w.trace = 0) ∧ failures s.w.trace ≤ 1 ∧
    completed s.w.trace ≤ doneBound blocks.length s.pc

/-! ## Concrete collaborators, for the worked runs -/

/-- Constants for the worked runs; the two distances are the `double`s nearest
to `0.6` and `0.4`. -/
def demoData : BaxterData :=
  { BLOCK_SIZE := 4 / 100, BASE_LINK := "base", SUPPORT_SURFACE3_NAME := "little_table",
    tableHeight := 1 / 10,
    graspData :=
      { approach_retreat_desired_dist_ := 5404319552844595 / 9007199254740992,
        approach_retreat_min_dist_ := 3602879701896397 / 9007199254740992,
        base_link_ := "base", pre_grasp_posture_ := [("right_gripper", 1)] } }

/-- A grasp as the generator may return it, with no object allowed to be touched. -/
def demoGrasp : Grasp :=
  { id := "Grasp0", pre_grasp_posture := [("right_gripper", 1)],
    grasp_posture := [("right_gripper", 0)],
    grasp_pose :=
      { header := { stamp := 0, frame_id := "base" }
        pose :=
          { position := { x := 55 / 100, y := -4 / 10, z := 1 / 10 }
            orientation := { x := 0, y := 0, z := 0, w := 1 } } },
    grasp_quality := 1,
    approach :=
      { direction :=
          { header := { stamp := 0, frame_id := "base" }, vector := { x := 1, y := 0, z := 0 } }
        desired_distance := Float32.finite (1 / 2), min_distance := Float32.finite (1 / 4) },
    retreat :=
      { direction :=
          { header := { stamp := 0, frame_id := "base" }, vector := { x := 0, y := 0, z := 1 } }
        desired_distance := Float32.finite (1 / 2), min_distance := Float32.finite (1 / 4) },
    max_contact_force := 0, allowed_touch_objects := [] }

/-- Collaborators for the worked runs: `ros::ok()` answers `ok`, the operator
types `cin`, the generator returns `grasps` every time, `move_group_` answers
`pickAnswer` and `placeAnswer` to its successive `pick` and `place` calls, and
enabling the robot works. -/
def demoEnv (ok : Nat → Bool) (cin : Nat → Char) (grasps : List Grasp)
    (pickAnswer placeAnswer : Nat → Bool) : Env :=
  { ok := ok, now := fun i => i, cin := cin, enableBaxter := true,
    generateGrasps := fun _ _ _ => grasps,
    movePick := fun i _ _ => pickAnswer i,
    movePlace := fun i _ _ => placeAnswer i,
    sinHalf := fun _ => 0, cosHalf := fun _ => 1 }

/-- The object of the constructor, in interactive mode (`auto_reset_` false). -/
def interactive (data : BaxterData) : SimplePickPlace :=
  { SimplePickPlace.new data with auto_reset_ := false }

/-- The block `W1` of the worked runs: `Block1` of `startRoutine` with the
constants of `demoData`, at `(0.55, -0.4, h)` with its goal `0.2` further
along `y`. -/
def demoBlock : MetaBlock :=
  { name := "Block1"
    start_pose :=
      { position := { x := 55 / 100, y := -4 / 10, z := 1 / 10 }
        orientation := { x := 0, y := 0, z := 0, w := 1 } }
    goal_pose :=
      { position := { x := 55 / 100, y := -4 / 10 + 2 / 10, z := 1 / 10 }
        orientation := { x := 0, y := 0, z := 0, w := 1 } } }

/-! ## The place locations -/

/-- The loop of `place` makes four passes, at `angle = k * (M_PI/2)` for
`k = 0, 1, 2, 3`. -/
theorem placeLoop_zero (self : SimplePickPlace) (env : Env) (header : Header) (goal : Pose)
    (w : World) :
    placeLoop self env header goal 0 w [] =
      let r0 := placeLocation self env header goal 0 w
      let r1 := placeLocation self env header goal 0x1921FB54442D18 r0.2
      let r2 := placeLocation self env header goal (2 * 0x1921FB54442D18) r1.2
      let r3 := placeLocation self env header goal (3 * 0x1921FB54442D18) r2.2
      ([r0.1, r1.1, r2.1, r3.1], r3.2) := by
  rw [placeLoop, dif_pos (by rw [dtwice_M_PI]; norm_num)]
  rw [dadd_quarter_0]
  rw [placeLoop, dif_pos (by rw [dtwice_M_PI]; norm_num)]
  rw [dadd_quarter_1]
  rw [placeLoop, dif_pos (by rw [dtwice_M_PI]; norm_num)]
  rw [dadd_quarter_2]
  rw [placeLoop, dif_pos (by rw [dtwice_M_PI]; norm_num)]
  rw [dadd_quarter_3]
  rw [placeLoop, dif_neg (by rw [dtwice_M_PI]; norm_num)]
  simp

/-- The answer and the world of `place`: nine readings of the clock, one
`publishBlock` per place location, and the three calls on `move_group_`. -/
theorem place_eq (self : SimplePickPlace) (env : Env) (goal : Pose) (name : String) (w : World) :
    place self env goal name w =
      (env.movePlace w.placeCalls name (placeLocations self env goal w),
       { w with clockReads := w.clockReads + 9, placeCalls := w.placeCalls + 1
                trace := w.trace ++
                  (placeLocations self env goal w).map
                    (fun l => Event.publishBlock l.place_pose.pose self.data.BLOCK_SIZE true) ++
                  [Event.setSupportSurfaceName self.data.SUPPORT_SURFACE3_NAME,
                   Event.setPlannerId "RRTConnectkConfigDefault",
                   Event.movePlace name (placeLocations self env goal w)
                     (env.movePlace w.placeCalls name (placeLocations self env goal w))] }) := by
  rw [place, placeLocations]
  simp only [placeLoop_zero]
  simp [placeLocation, timeNow, World.emit]

/-- The place locations are four, all at the position of the goal pose. -/
theorem placeLocations_position (self : SimplePickPlace) (env : Env) (goal : Pose) (w : World) :
    (placeLocations self env goal w).map (fun l => l.place_pose.pose.position) =
      List.replicate 4 goal.position := by
  simp [placeLocations, placeLocation, List.replicate]

/-! ## The distances and the orientations of the place locations -/

/-- The exponent of the leading bit of a positive rational, from bounds. -/
theorem intLog_eq_of_bounds (x : ℚ) (e : ℤ) (h1 : (2 : ℚ) ^ e ≤ x) (h2 : x < (2 : ℚ) ^ (e + 1)) :
    Int.log 2 x = e := by
  have hx : 0 < x := lt_of_lt_of_le (by positivity) h1
  have ha : e ≤ Int.log 2 x := (Int.zpow_le_iff_le_log (by norm_num) hx).1 (by exact_mod_cast h1)
  have hb : Int.log 2 x < e + 1 := (Int.lt_zpow_iff_log_lt (by norm_num) hx).1 (by exact_mod_cast h2)
  omega

/-- The `double` nearest to `0.6` becomes the `float32` nearest to `0.6`, which
is another number. -/
theorem toFloat32_six_tenths :
    toFloat32 (5404319552844595 / 9007199254740992) = Float32.finite (10066330 / 16777216) := by
  have hl : Int.log 2 |(5404319552844595 / 9007199254740992 : ℚ)| = -1 := by
    apply intLog_eq_of_bounds <;> norm_num [abs_of_pos]
  have hf : ⌊(5404319552844595 / 9007199254740992 : ℚ) / 2 ^ ((-1 : ℤ) - 23)⌋ = 10066329 := by
    rw [Int.floor_eq_iff]; norm_num
  rw [toFloat32, if_neg (by norm_num), hl]
  simp only [roundFloat32]
  norm_num [abs_of_pos, hf]

/-- The sine moves no further than its argument. -/
theorem abs_sin_sub_sin_le (x y : ℝ) : |Real.sin x - Real.sin y| ≤ |x - y| := by
  rw [Real.sin_sub_sin, abs_mul, abs_mul, abs_two]
  have h1 : |Real.sin ((x - y) / 2)| ≤ |(x - y) / 2| := Real.abs_sin_le_abs
  have h2 : |Real.cos ((x + y) / 2)| ≤ 1 := Real.abs_cos_le_one _
  have h3 : |(x - y) / 2| = |x - y| / 2 := by rw [abs_div, abs_two]
  have h0 : 0 ≤ |Real.sin ((x - y) / 2)| := abs_nonneg _
  have h4 : 0 ≤ |Real.cos ((x + y) / 2)| := abs_nonneg _
  nlinarith

/-- The cosine moves no further than its argument. -/
theorem abs_cos_sub_cos_le (x y : ℝ) : |Real.cos x - Real.cos y| ≤ |x - y| := by
  rw [Real.cos_sub_cos, abs_mul, abs_mul, abs_neg, abs_two]
  have h1 : |Real.sin ((x - y) / 2)| ≤ |(x - y) / 2| := Real.abs_sin_le_abs
  have h2 : |Real.sin ((x + y) / 2)| ≤ 1 := Real.abs_sin_le_one _
  have h3 : |(x - y) / 2| = |x - y| / 2 := by rw [abs_div, abs_two]
  have h0 : 0 ≤ |Real.sin ((x - y) / 2)| := abs_nonneg _
  have h4 : 0 ≤ |Real.sin ((x + y) / 2)| := abs_nonneg _
  nlinarith

/-- The half of the `double` `k * (M_PI/2)` is within `2^-53` of `k * (π/4)`. -/
theorem halfAngle_close (k : Nat) (hk : k < 4) :
    |((k * dhalf M_PI : ℕ) : ℝ) / 2 ^ 53 - k * (Real.pi / 4)| ≤ 1 / 2 ^ 53 := by
  have h1 := Real.pi_gt_d20
  have h2 := Real.pi_lt_d20
  rw [dhalf_M_PI, abs_le]
  interval_cases k <;> norm_num at h1 h2 ⊢ <;> constructor <;> linarith

/-- Claim C1 as stated fails. With the grasp data of `demoData` (desired
distance the `double` nearest to `0.6`), the approach of the first place
location that `place` hands to `move_group_->place` has the desired distance
`10066330 / 2^24`, the `float32` nearest to `0.6`, which is not the configured
distance.  And whatever the math library answers, the `z` of the orientation
of the second place location is a `double`, so it is not `sin 45°`, the `z` of
the rotation by 90 degrees about `Z`. -/
theorem place_distance_is_narrowed :
    (∃ locs loc,
      (place (SimplePickPlace.new demoData)
        (demoEnv (fun _ => true) (fun _ => 'y') [demoGrasp] (fun _ => true) (fun _ => true))
        demoBlock.goal_pose "Block1" World.init).2.trace.getLast? =
        some (Event.movePlace "Block1" locs true) ∧
      locs[0]? = some loc ∧
      loc.approach.desired_distance = Float32.finite (10066330 / 16777216) ∧
      loc.approach.desired_distance ≠
        Float32.finite (SimplePickPlace.new demoData).grasp_data_.approach_retreat_desired_dist_) ∧
    ∀ (env : Env) (loc : PlaceLocation),
      (placeLocations (SimplePickPlace.new demoData) env demoBlock.goal_pose World.init)[1]? =
        some loc →
      (loc.place_pose.pose.orientation.z : ℝ) ≠ Real.sin (Real.pi / 4) := by
  constructor
  · refine ⟨placeLocations (SimplePickPlace.new demoData)
        (demoEnv (fun _ => true) (fun _ => 'y') [demoGrasp] (fun _ => true) (fun _ => true))
        demoBlock.goal_pose World.init, _, ?_, rfl, ?_, ?_⟩
    · rw [place_eq]
      simp [demoEnv]
    · simp only [placeLocations, List.getElem_cons_zero, placeLocation, SimplePickPlace.new,
        demoData, toFloat32_six_tenths]
    · simp only [placeLocations, List.getElem_cons_zero, placeLocation, SimplePickPlace.new,
        demoData, toFloat32_six_tenths]
      norm_num
  · intro env loc _
    rw [Real.sin_pi_div_four]
    intro h
    have hirr : Irrational (√2 / 2) := by
      have := irrational_sqrt_two.div_nat (show (2 : ℕ) ≠ 0 by norm_num)
      simpa using this
    exact hirr ⟨_, h⟩

/-- Claim C1, amended. For every goal pose, object, name and world, `place` hands
`move_group_->place` (its last call) a list of exactly 4 place locations; the
`k`-th one (`k = 0, 1, 2, 3`) has the position of the goal pose; its
orientation, whatever the orientation of the goal pose was, is
`(0, 0, sin(a/2), cos(a/2))` as the math library computes them at the `double`
`a = k * (M_PI/2)`, which is the rotation by `k * 90` degrees about `Z` up to
rounding: when the library is within `ε` of the sine (cosine) at `a/2`, which
is `a / 2^53` for `a` in units of `2^-52`, `z` (`w`) is within `ε + 2^-53` of
`sin (k * 45°)` (`cos (k * 45°)`); its approach is
along `(0, 0, -1)` and its retreat along `(0, 0, 1)`, both with the desired and
minimum distances of the grasp data rounded to `float32`, the same in all four
entries. -/
theorem place_hands_four_locations (self : SimplePickPlace) (env : Env) (goal : Pose)
    (name : String) (w : World) :
    ∃ locs : List PlaceLocation,
      (place self env goal name w).2.trace.getLast? =
        some (Event.movePlace name locs (place self env goal name w).1) ∧
      locs.length = 4 ∧
      ∀ k, k < 4 → ∃ loc, locs[k]? = some loc ∧
        loc.place_pose.pose.position = goal.position ∧
        loc.place_pose.pose.orientation =
          { x := 0, y := 0, z := env.sinHalf (k * dhalf M_PI), w := env.cosHalf (k * dhalf M_PI) } ∧
        (∀ ε : ℝ,
          |(env.sinHalf (k * dhalf M_PI) : ℝ) -
              Real.sin (((k * dhalf M_PI : ℕ) : ℝ) / 2 ^ 53)| ≤ ε →
          |(loc.place_pose.pose.orientation.z : ℝ) - Real.sin (k * (Real.pi / 4))| ≤
            ε + 1 / 2 ^ 53) ∧
        (∀ ε : ℝ,
          |(env.cosHalf (k * dhalf M_PI) : ℝ) -
              Real.cos (((k * dhalf M_PI : ℕ) : ℝ) / 2 ^ 53)| ≤ ε →
          |(loc.place_pose.pose.orientation.w : ℝ) - Real.cos (k * (Real.pi / 4))| ≤
            ε + 1 / 2 ^ 53) ∧
        loc.approach.direction.vector = { x := 0, y := 0, z := -1 } ∧
        loc.approach.desired_distance =
          toFloat32 self.grasp_data_.approach_retreat_desired_dist_ ∧
        loc.approach.min_distance = toFloat32 self.grasp_data_.approach_retreat_min_dist_ ∧
        loc.retreat.direction.vector = { x := 0, y := 0, z := 1 } ∧
        loc.retreat.desired_distance =
          toFloat32 self.grasp_data_.approach_retreat_desired_dist_ ∧
        loc.retreat.min_distance = toFloat32 self.grasp_data_.approach_retreat_min_dist_ := by
  refine ⟨placeLocations self env goal w, ?_, rfl, ?_⟩
  · rw [place_eq]
    simp
  · intro k hk
    have hclose := halfAngle_close k hk
    have hs : ∀ ε : ℝ,
        |(env.sinHalf (k * dhalf M_PI) : ℝ) -
            Real.sin (((k * dhalf M_PI : ℕ) : ℝ) / 2 ^ 53)| ≤ ε →
        |(env.sinHalf (k * dhalf M_PI) : ℝ) - Real.sin (k * (Real.pi / 4))| ≤ ε + 1 / 2 ^ 53 := by
      intro ε h
      have h1 := abs_sin_sub_sin_le (((k * dhalf M_PI : ℕ) : ℝ) / 2 ^ 53) (k * (Real.pi / 4))
      have h2 := abs_sub_le (env.sinHalf (k * dhalf M_PI) : ℝ)
        (Real.sin (((k * dhalf M_PI : ℕ) : ℝ) / 2 ^ 53)) (Real.sin (k * (Real.pi / 4)))
      linarith
    have hc : ∀ ε : ℝ,
        |(env.cosHalf (k * dhalf M_PI) : ℝ) -
            Real.cos (((k * dhalf M_PI : ℕ) : ℝ) / 2 ^ 53)| ≤ ε →
        |(env.cosHalf (k * dhalf M_PI) : ℝ) - Real.cos (k * (Real.pi / 4))| ≤ ε + 1 / 2 ^ 53 := by
      intro ε h
      have h1 := abs_cos_sub_cos_le (((k * dhalf M_PI : ℕ) : ℝ) / 2 ^ 53) (k * (Real.pi / 4))
      have h2 := abs_sub_le (env.cosHalf (k * dhalf M_PI) : ℝ)
        (Real.cos (((k * dhalf M_PI : ℕ) : ℝ) / 2 ^ 53)) (Real.cos (k * (Real.pi / 4)))
      linarith
    rw [dhalf_M_PI] at hs hc ⊢
    interval_cases k <;>
      exact ⟨_, rfl, rfl, by simp [placeLocations, placeLocation, quatAboutZ],
        by simpa [placeLocations, placeLocation, quatAboutZ] using hs,
        by simpa [placeLocations, placeLocation, quatAboutZ] using hc, rfl, rfl, rfl, rfl, rfl, rfl⟩

/-- The calls and the answer of `promptUser`. -/
theorem promptUser_eq (self : SimplePickPlace) (env : Env) (w : World) :
    promptUser self env w =
      if env.ok w.okPolls = false then
        (false, { w with okPolls := w.okPolls + 1, trace := w.trace ++ [Event.rosOk false] })
      else if self.auto_reset_ = true then
        (true, { w with okPolls := w.okPolls + 1
                        trace := w.trace ++ [Event.rosOk true, Event.sleep self.auto_reset_sec_] })
      else
        (!decide (env.cin w.cinReads = 'n'),
         { w with okPolls := w.okPolls + 1, cinReads := w.cinReads + 1
                  trace := w.trace ++ [Event.rosOk true, Event.cinRead (env.cin w.cinReads)] }) := by
  unfold promptUser rosOk World.emit
  cases hok : env.ok w.okPolls <;> cases hauto : self.auto_reset_ <;>
    by_cases hc : env.cin w.cinReads = 'n' <;> simp [hc]

/-- The calls of `resetBlock`. -/
theorem resetBlock_eq (self : SimplePickPlace) (block : MetaBlock) (w : World) :
    resetBlock self block w =
      { w with trace := w.trace ++
          [Event.cleanupACO block.name, Event.cleanupCO block.name,
           Event.publishCollisionBlock block.start_pose block.name self.data.BLOCK_SIZE] } := by
  simp [resetBlock, World.emit]

/-- The calls of the loop that re-adds all blocks. -/
theorem resetAll_eq (self : SimplePickPlace) (blocks : List MetaBlock) (w : World) :
    resetAll self blocks w =
      { w with trace := w.trace ++ blocks.flatMap fun block =>
          [Event.cleanupACO block.name, Event.cleanupCO block.name,
           Event.publishCollisionBlock block.start_pose block.name self.data.BLOCK_SIZE] } := by
  induction blocks generalizing w with
  | nil => simp [resetAll]
  | cons b rest ih => simp [resetAll, ih, resetBlock_eq]

/-! ## Manipulation calls of the member functions -/

@[simp] theorem acts_nil : acts [] = [] := rfl

@[simp] theorem acts_append (a b : List Event) : acts (a ++ b) = acts a ++ acts b := by
  simp [acts]

@[simp] theorem acts_cons (e : Event) (t : List Event) :
    acts (e :: t) = (e.act).toList ++ acts t := by
  cases h : e.act <;> simp [acts, List.filterMap_cons, h]

@[simp] theorem acts_publishBlock {α : Type} (l : List α) (f : α → Pose) (size : ℚ) (goal : Bool) :
    acts (l.map fun x => Event.publishBlock (f x) size goal) = [] := by
  induction l with
  | nil => rfl
  | cons x l ih => simp [Event.act, ih]

theorem acts_resetAll (self : SimplePickPlace) (blocks : List MetaBlock) :
    acts (blocks.flatMap fun block =>
      [Event.cleanupACO block.name, Event.cleanupCO block.name,
       Event.publishCollisionBlock block.start_pose block.name self.data.BLOCK_SIZE]) =
      blocks.flatMap resetActs := by
  induction blocks with
  | nil => rfl
  | cons b rest ih =>
    simp only [List.flatMap_cons, acts_append, ih]
    simp [Event.act, resetActs]

/-! ## Runs -/

theorem run_add (self : SimplePickPlace) (env : Env) (blocks : List MetaBlock) (m n : Nat)
    (s : State) : run self env blocks (m + n) s = run self env blocks n (run self env blocks m s) := by
  induction m generalizing s with
  | zero => simp [run]
  | succ m ih => rw [Nat.succ_add]; simp [run, ih]

/-- Once the process has ended in `exit(0)` nothing happens any more. -/
theorem run_exited (self : SimplePickPlace) (env : Env) (blocks : List MetaBlock) (n : Nat)
    (w : World) : run self env blocks n ⟨PC.exited, w⟩ = ⟨PC.exited, w⟩ := by
  induction n with
  | zero => rfl
  | succ n ih => simpa [run, step] using ih

/-- Once `main` has returned nothing happens any more. -/
theorem run_finished (self : SimplePickPlace) (env : Env) (blocks : List MetaBlock) (n : Nat)
    (w : World) : run self env blocks n ⟨PC.finished, w⟩ = ⟨PC.finished, w⟩ := by
  induction n with
  | zero => rfl
  | succ n ih => simpa [run, step] using ih

/-! ## The grasps of `pick` -/

/-- The calls of `pick` and its answer: the generator is asked once, and
`move_group_->pick` once, on the generated grasps with the touch list set. -/
theorem pick_eq (self : SimplePickPlace) (env : Env) (pose : Pose) (name : String) (w : World) :
    pick self env pose name w =
      let grasps := (env.generateGrasps w.genCalls pose self.grasp_data_).map fun g =>
        { g with allowed_touch_objects := allowed_touch_objects }
      (env.movePick w.pickCalls name grasps,
       { w with genCalls := w.genCalls + 1, pickCalls := w.pickCalls + 1
                trace := w.trace ++
                  [Event.generateGrasps pose self.grasp_data_,
                   Event.setSupportSurfaceName self.data.SUPPORT_SURFACE3_NAME,
                   Event.movePick name grasps (env.movePick w.pickCalls name grasps)] }) := by
  simp [pick, World.emit]

/-- Claim C2 as stated fails. With the three blocks of `startRoutine` and a
generator that returns one grasp, the grasp handed to `move_group_->pick` may
touch `Block4`, which is not the name of any block of the run. -/
theorem pick_touch_list_not_block_names :
    ∃ g, Event.movePick "Block1" [g] true ∈
        (pick (SimplePickPlace.new demoData)
          (demoEnv (fun _ => true) (fun _ => 'y') [demoGrasp] (fun _ => true) (fun _ => true))
          demoGrasp.grasp_pose.pose "Block1" World.init).2.trace ∧
      "Block4" ∈ g.allowed_touch_objects ∧
      "Block4" ∉ (startBlocks demoData
          (demoEnv (fun _ => true) (fun _ => 'y') [demoGrasp] (fun _ => true)
            (fun _ => true))).map MetaBlock.name := by
  refine ⟨{ demoGrasp with allowed_touch_objects := allowed_touch_objects }, ?_, ?_, ?_⟩
  · simp [pick_eq, demoEnv, World.init]
  · simp [allowed_touch_objects]
  · simp [startBlocks, createStartBlock]

/-- Claim C2, amended. When the generator returns `N` grasps (`N ≥ 1` or not), `pick` hands
`move_group_->pick` (its last call) exactly `N` grasps, the `i`-th being the
`i`-th generated one with only `allowed_touch_objects` changed, to the fixed
list `Block1, Block2, Block3, Block4`; that list holds the name of every block
of `startRoutine`. -/
theorem pick_hands_generated_grasps (self : SimplePickPlace) (env : Env) (pose : Pose)
    (name : String) (w : World) :
    ∃ grasps : List Grasp,
      (pick self env pose name w).2.trace.getLast? =
        some (Event.movePick name grasps (pick self env pose name w).1) ∧
      grasps.length = (env.generateGrasps w.genCalls pose self.grasp_data_).length ∧
      (∀ (i : Nat) (g : Grasp), (env.generateGrasps w.genCalls pose self.grasp_data_)[i]? = some g →
        grasps[i]? =
          some { g with allowed_touch_objects := ["Block1", "Block2", "Block3", "Block4"] }) ∧
      ∀ data env0, ∀ b ∈ startBlocks data env0, ∀ g ∈ grasps, b.name ∈ g.allowed_touch_objects := by
  refine ⟨(env.generateGrasps w.genCalls pose self.grasp_data_).map fun g =>
    { g with allowed_touch_objects := allowed_touch_objects }, ?_, ?_, ?_, ?_⟩
  · simp [pick_eq]
  · simp
  · intro i g hg
    simp [hg, allowed_touch_objects]
  · intro data env0 b hb g hg
    simp only [List.mem_map] at hg
    obtain ⟨g0, -, rfl⟩ := hg
    simp [startBlocks, createStartBlock] at hb
    rcases hb with rfl | rfl | rfl <;> simp [allowed_touch_objects]

/-! ## The retry question -/

/-- Claim C4. The function `promptUser` returns `false` exactly when `ros::ok()`
answers `false`, or `auto_reset_` is off and the character read is `n`.  Its
calls are: the poll alone when `ros::ok()` answers `false` (no sleep, nothing
read); the poll and the sleep in auto mode (nothing read); the poll and one
read otherwise. -/
theorem promptUser_false_iff (self : SimplePickPlace) (env : Env) (w : World) :
    ((promptUser self env w).1 = false ↔
      env.ok w.okPolls = false ∨ (self.auto_reset_ = false ∧ env.cin w.cinReads = 'n')) ∧
    (promptUser self env w).2.trace =
      w.trace ++
        (if env.ok w.okPolls = false then [Event.rosOk false]
         else if self.auto_reset_ = true then [Event.rosOk true, Event.sleep self.auto_reset_sec_]
         else [Event.rosOk true, Event.cinRead (env.cin w.cinReads)]) ∧
    (promptUser self env w).2.cinReads =
      (if env.ok w.okPolls = false ∨ self.auto_reset_ = true then w.cinReads
       else w.cinReads + 1) := by
  unfold promptUser rosOk World.emit
  cases hok : env.ok w.okPolls <;> cases hauto : self.auto_reset_ <;>
    by_cases hc : env.cin w.cinReads = 'n' <;> simp [hc]

/-! ## An empty list of grasps -/

/-- Claim C3 as stated fails. The generator returns no grasp and
`move_group_->pick` answers `true` to the empty list: `pick` returns `true`,
and the step from the pick loop of block 0 goes on to its place loop. -/
theorem pick_of_no_grasps_may_succeed :
    (demoEnv (fun _ => true) (fun _ => 'y') [] (fun _ => true) (fun _ => true)).generateGrasps 0
        (createStartBlock demoData
          (demoEnv (fun _ => true) (fun _ => 'y') [] (fun _ => true) (fun _ => true))
          (55 / 100) (-4 / 10) "Block1").start_pose demoData.graspData = [] ∧
    (pick (SimplePickPlace.new demoData)
        (demoEnv (fun _ => true) (fun _ => 'y') [] (fun _ => true) (fun _ => true))
        (createStartBlock demoData
          (demoEnv (fun _ => true) (fun _ => 'y') [] (fun _ => true) (fun _ => true))
          (55 / 100) (-4 / 10) "Block1").start_pose "Block1" World.init).1 = true ∧
    (step (SimplePickPlace.new demoData)
        (demoEnv (fun _ => true) (fun _ => 'y') [] (fun _ => true) (fun _ => true))
        (startBlocks demoData
          (demoEnv (fun _ => true) (fun _ => 'y') [] (fun _ => true) (fun _ => true)))
        ⟨PC.pickLoop 0, World.init⟩).pc = PC.placeLoop 0 := by
  refine ⟨rfl, ?_, ?_⟩
  · simp [pick_eq, demoEnv]
  · simp [step, startBlocks, rosOk, pick_eq, demoEnv, World.init, World.emit]

/-- Claim C3, amended. When `ros::ok()` holds at the pick loop of a block and the
generator returns no grasp, the step hands `move_group_->pick` the empty list
and `pick` returns the answer of `move_group_`.  When that answer is `false`,
`promptUser` is asked next: on `false` the process exits, on `true` the block is
reset and the pick loop is entered again; the place loop is not entered. -/
theorem pick_of_no_grasps (self : SimplePickPlace) (env : Env) (blocks : List MetaBlock)
    (block_id : Nat) (block : MetaBlock) (w : World)
    (hblock : blocks[block_id]? = some block)
    (hok : env.ok w.okPolls = true)
    (hgen : env.generateGrasps w.genCalls block.start_pose self.grasp_data_ = []) :
    let w1 := (rosOk env w).2.emit (Event.publishBlock block.start_pose self.data.BLOCK_SIZE false)
    let p := pick self env block.start_pose block.name w1
    let q := promptUser self env p.2
    p.1 = env.movePick w.pickCalls block.name [] ∧
    p.2.trace.getLast? = some (Event.movePick block.name [] p.1) ∧
    (p.1 = false →
      step self env blocks ⟨PC.pickLoop block_id, w⟩ =
        (if q.1 = true then ⟨PC.pickLoop block_id, resetBlock self block q.2⟩
         else ⟨PC.exited, q.2.emit (Event.exit 0)⟩) ∧
      (step self env blocks ⟨PC.pickLoop block_id, w⟩).pc ≠ PC.placeLoop block_id) := by
  intro w1 p q
  have hp : p.1 = env.movePick w.pickCalls block.name [] := by
    simp [p, w1, pick_eq, rosOk, World.emit, hgen]
  refine ⟨hp, ?_, ?_⟩
  · simp [p, w1, pick_eq, rosOk, World.emit, hgen]
  · intro hfalse
    have hstep : step self env blocks ⟨PC.pickLoop block_id, w⟩ =
        (if q.1 = true then ⟨PC.pickLoop block_id, resetBlock self block q.2⟩
         else ⟨PC.exited, q.2.emit (Event.exit 0)⟩) := by
      have h1 : (rosOk env w).1 = true := by simp [rosOk, hok]
      simp only [step, hblock, h1]
      simp only [p, w1] at hfalse
      simp only [hfalse, q, p, w1]
      cases hq : (promptUser self env (pick self env block.start_pose block.name
        ((rosOk env w).2.emit
          (Event.publishBlock block.start_pose self.data.BLOCK_SIZE false))).2).1 <;> simp
    refine ⟨hstep, ?_⟩
    rw [hstep]
    split <;> simp

/-- The amended C3 on block 0 of the three blocks, with a generator that
returns nothing and a `move_group_` that then answers `false`. -/
theorem pick_of_no_grasps_witness :
    (step (interactive demoData)
        (demoEnv (fun _ => true) (fun _ => 'n') [] (fun _ => false) (fun _ => true))
        (startBlocks demoData
          (demoEnv (fun _ => true) (fun _ => 'n') [] (fun _ => false) (fun _ => true)))
        ⟨PC.pickLoop 0, World.init⟩).pc ≠ PC.placeLoop 0 :=
  let env := demoEnv (fun _ => true) (fun _ => 'n') [] (fun _ => false) (fun _ => true)
  ((pick_of_no_grasps (interactive demoData) env (startBlocks demoData env) 0
      ((startBlocks demoData env).head (by simp [startBlocks]))
      World.init (by simp [startBlocks]) rfl rfl).2.2
    (by simp [pick_eq, env, demoEnv])).2

/-! ## Leaving by `exit(0)` -/

/-- Claim C5, the defect. The process of `main` (auto mode, the three blocks),
with the robot enabled, `ros::ok()` true at the two loop tests and false from
then on, and a first pick that fails: `promptUser` returns `false`, the process
ends in `exit(0)` after three steps and stays there, and `disableBaxter` has
not been called.  When `ros::ok()` is false at the first test instead, the
routine returns and `disableBaxter` is called. -/
theorem exit_leaves_robot_enabled :
    (∀ n, (main demoData
            (demoEnv (fun i => decide (i < 2)) (fun _ => 'y') [demoGrasp] (fun _ => false)
              (fun _ => true)) (3 + n)).pc = PC.exited ∧
          Event.enableBaxter true ∈
            (main demoData
              (demoEnv (fun i => decide (i < 2)) (fun _ => 'y') [demoGrasp] (fun _ => false)
                (fun _ => true)) (3 + n)).w.trace ∧
          Event.disableBaxter ∉
            (main demoData
              (demoEnv (fun i => decide (i < 2)) (fun _ => 'y') [demoGrasp] (fun _ => false)
                (fun _ => true)) (3 + n)).w.trace) ∧
    (∀ n, (main demoData
            (demoEnv (fun _ => false) (fun _ => 'y') [demoGrasp] (fun _ => false)
              (fun _ => true)) (3 + n)).pc = PC.finished ∧
          Event.disableBaxter ∈
            (main demoData
              (demoEnv (fun _ => false) (fun _ => 'y') [demoGrasp] (fun _ => false)
                (fun _ => true)) (3 + n)).w.trace) := by
  constructor
  · intro n
    have h : main demoData
        (demoEnv (fun i => decide (i < 2)) (fun _ => 'y') [demoGrasp] (fun _ => false)
          (fun _ => true)) 3 =
        ⟨PC.exited, (main demoData
          (demoEnv (fun i => decide (i < 2)) (fun _ => 'y') [demoGrasp] (fun _ => false)
            (fun _ => true)) 3).w⟩ := by
      simp [main, run, step, startBlocks, rosOk, pick_eq, promptUser_eq, resetAll_eq, demoEnv,
        World.init, World.emit, SimplePickPlace.new]
    unfold main at h ⊢
    rw [run_add, h, run_exited]
    simp [run, step, startBlocks, rosOk, pick_eq, promptUser_eq, resetAll_eq, demoEnv,
      World.init, World.emit, SimplePickPlace.new]
  · intro n
    have h : main demoData
        (demoEnv (fun _ => false) (fun _ => 'y') [demoGrasp] (fun _ => false) (fun _ => true)) 3 =
        ⟨PC.finished, (main demoData
          (demoEnv (fun _ => false) (fun _ => 'y') [demoGrasp] (fun _ => false)
            (fun _ => true)) 3).w⟩ := by
      simp [main, run, step, rosOk, demoEnv, World.init, World.emit]
    unfold main at h ⊢
    rw [run_add, h, run_finished]
    simp [run, step, rosOk, demoEnv, World.init, World.emit]

/-! ## Cycles in which everything succeeds -/

/-- The step from the pick loop of an existing block. -/
theorem step_pickLoop (self : SimplePickPlace) (env : Env) (blocks : List MetaBlock)
    (i : Nat) (b : MetaBlock) (w : World) (hb : blocks[i]? = some b) :
    step self env blocks ⟨PC.pickLoop i, w⟩ =
      if (rosOk env w).1 = false then ⟨PC.placeLoop i, (rosOk env w).2⟩
      else if (pick self env b.start_pose b.name ((rosOk env w).2.emit
          (Event.publishBlock b.start_pose self.data.BLOCK_SIZE false))).1 = true then
        ⟨PC.placeLoop i, (pick self env b.start_pose b.name ((rosOk env w).2.emit
          (Event.publishBlock b.start_pose self.data.BLOCK_SIZE false))).2⟩
      else if (promptUser self env (pick self env b.start_pose b.name ((rosOk env w).2.emit
          (Event.publishBlock b.start_pose self.data.BLOCK_SIZE false))).2).1 = true then
        ⟨PC.pickLoop i, resetBlock self b (promptUser self env (pick self env b.start_pose b.name
          ((rosOk env w).2.emit
            (Event.publishBlock b.start_pose self.data.BLOCK_SIZE false))).2).2⟩
      else
        ⟨PC.exited, (promptUser self env (pick self env b.start_pose b.name
          ((rosOk env w).2.emit
            (Event.publishBlock b.start_pose self.data.BLOCK_SIZE false))).2).2.emit
          (Event.exit 0)⟩ := by
  simp only [step, hb]
  cases (rosOk env w).1 <;> simp
  cases (pick self env b.start_pose b.name ((rosOk env w).2.emit
          (Event.publishBlock b.start_pose self.data.BLOCK_SIZE false))).1 <;> simp
  cases (promptUser self env (pick self env b.start_pose b.name ((rosOk env w).2.emit
          (Event.publishBlock b.start_pose self.data.BLOCK_SIZE false))).2).1 <;> simp

/-- The step from the place loop of an existing block. -/
theorem step_placeLoop (self : SimplePickPlace) (env : Env) (blocks : List MetaBlock)
    (i : Nat) (b : MetaBlock) (w : World) (hb : blocks[i]? = some b) :
    step self env blocks ⟨PC.placeLoop i, w⟩ =
      if (rosOk env w).1 = false then ⟨PC.pickLoop (i + 1), (rosOk env w).2⟩
      else if (place self env b.goal_pose b.name ((rosOk env w).2.emit
          (Event.publishBlock b.goal_pose self.data.BLOCK_SIZE true))).1 = true then
        ⟨PC.pickLoop (i + 1), (place self env b.goal_pose b.name ((rosOk env w).2.emit
          (Event.publishBlock b.goal_pose self.data.BLOCK_SIZE true))).2⟩
      else if (promptUser self env (place self env b.goal_pose b.name ((rosOk env w).2.emit
          (Event.publishBlock b.goal_pose self.data.BLOCK_SIZE true))).2).1 = true then
        ⟨PC.placeLoop i, (promptUser self env (place self env b.goal_pose b.name
          ((rosOk env w).2.emit
            (Event.publishBlock b.goal_pose self.data.BLOCK_SIZE true))).2).2⟩
      else
        ⟨PC.exited, (promptUser self env (place self env b.goal_pose b.name
          ((rosOk env w).2.emit
            (Event.publishBlock b.goal_pose self.data.BLOCK_SIZE true))).2).2.emit
          (Event.exit 0)⟩ := by
  simp only [step, hb]
  cases (rosOk env w).1 <;> simp
  cases (place self env b.goal_pose b.name ((rosOk env w).2.emit
          (Event.publishBlock b.goal_pose self.data.BLOCK_SIZE true))).1 <;> simp
  cases (promptUser self env (place self env b.goal_pose b.name ((rosOk env w).2.emit
          (Event.publishBlock b.goal_pose self.data.BLOCK_SIZE true))).2).1 <;> simp

/-- One block whose pick and place succeed at once: two steps. -/
theorem run_item_ok (self : SimplePickPlace) (env : Env) (blocks : List MetaBlock)
    (hok : ∀ i, env.ok i = true) (hpick : ∀ i name grasps, env.movePick i name grasps = true)
    (hplace : ∀ i name locs, env.movePlace i name locs = true)
    (i : Nat) (b : MetaBlock) (w : World) (hb : blocks[i]? = some b) :
    (run self env blocks 2 ⟨PC.pickLoop i, w⟩).pc = PC.pickLoop (i + 1) ∧
      acts (run self env blocks 2 ⟨PC.pickLoop i, w⟩).w.trace =
        acts w.trace ++ (pickActs b true ++ placeActs b true) ∧
      (run self env blocks 2 ⟨PC.pickLoop i, w⟩).w.cinReads = w.cinReads := by
  simp only [run, step_pickLoop self env blocks i b _ hb, rosOk, hok, pick_eq, hpick,
    World.emit, Bool.true_eq_false, if_false, if_true,
    step_placeLoop self env blocks i b _ hb, place_eq, hplace]
  simp [Event.act, pickActs, placeActs, placeLocations_position]

theorem State.eq_mk (s : State) (pc : PC) (h : s.pc = pc) : s = ⟨pc, s.w⟩ := by
  cases s; simp_all

/-- The blocks from `i` on, each picked and placed at once: two steps a block. -/
theorem run_items_ok (self : SimplePickPlace) (env : Env) (blocks : List MetaBlock)
    (hok : ∀ i, env.ok i = true) (hpick : ∀ i name grasps, env.movePick i name grasps = true)
    (hplace : ∀ i name locs, env.movePlace i name locs = true)
    (rest : List MetaBlock) :
    ∀ (i : Nat) (w : World), i ≤ blocks.length → blocks.drop i = rest →
      (run self env blocks (2 * rest.length) ⟨PC.pickLoop i, w⟩).pc = PC.pickLoop blocks.length ∧
      acts (run self env blocks (2 * rest.length) ⟨PC.pickLoop i, w⟩).w.trace =
        acts w.trace ++ rest.flatMap (fun b => pickActs b true ++ placeActs b true) ∧
      (run self env blocks (2 * rest.length) ⟨PC.pickLoop i, w⟩).w.cinReads = w.cinReads := by
  induction rest with
  | nil =>
    intro i w hi hdrop
    have : blocks.length ≤ i := List.drop_eq_nil_iff.mp hdrop
    have hi' : i = blocks.length := by omega
    subst hi'
    simp [run]
  | cons b rest ih =>
    intro i w hi hdrop
    have hlt : i < blocks.length := by
      by_contra hge
      have : blocks.drop i = [] := List.drop_eq_nil_iff.mpr (by omega)
      simp [this] at hdrop
    have hb : blocks[i]? = some b := by
      have := congrArg List.head? hdrop
      simpa [List.head?_drop] using this
    have hdrop' : blocks.drop (i + 1) = rest := by
      have := congrArg List.tail hdrop
      simpa [List.tail_drop] using this
    obtain ⟨h1, h2, h3⟩ := run_item_ok self env blocks hok hpick hplace i b w hb
    have hrun := State.eq_mk _ _ h1
    have hlen : 2 * (b :: rest).length = 2 + 2 * rest.length := by simp; omega
    rw [hlen, run_add, hrun]
    obtain ⟨k1, k2, k3⟩ := ih (i + 1) (run self env blocks 2 ⟨PC.pickLoop i, w⟩).w (by omega) hdrop'
    refine ⟨k1, ?_, ?_⟩
    · rw [k2, h2]; simp
    · rw [k3, h3]

/-- One cycle in interactive mode in which every pick and place succeeds at
once: `2 * n + 3` steps for `n` blocks, ending at the repeat question, which is
answered by the next character of the operator. -/
theorem run_cycle_ok (self : SimplePickPlace) (env : Env) (blocks : List MetaBlock)
    (hauto : self.auto_reset_ = false)
    (hok : ∀ i, env.ok i = true) (hpick : ∀ i name grasps, env.movePick i name grasps = true)
    (hplace : ∀ i name locs, env.movePlace i name locs = true) (w : World) :
    (run self env blocks (2 * blocks.length + 3) ⟨PC.outerLoop, w⟩).pc =
        (if env.cin w.cinReads = 'n' then PC.returned else PC.outerLoop) ∧
      acts (run self env blocks (2 * blocks.length + 3) ⟨PC.outerLoop, w⟩).w.trace =
        acts w.trace ++ cycleActs blocks ∧
      (run self env blocks (2 * blocks.length + 3) ⟨PC.outerLoop, w⟩).w.cinReads =
        w.cinReads + 1 := by
  have hsteps : 2 * blocks.length + 3 = 1 + (2 * blocks.length + 2) := by omega
  rw [hsteps, run_add]
  have h1 : run self env blocks 1 ⟨PC.outerLoop, w⟩ =
      ⟨PC.pickLoop 0, resetAll self blocks (rosOk env w).2⟩ := by
    simp [run, step, rosOk, hok]
  rw [h1, run_add]
  obtain ⟨k1, k2, k3⟩ := run_items_ok self env blocks hok hpick hplace blocks 0
    (resetAll self blocks (rosOk env w).2) (by omega) (by simp)
  have hnone : blocks[blocks.length]? = none := by simp
  generalize run self env blocks (2 * blocks.length)
    ⟨PC.pickLoop 0, resetAll self blocks (rosOk env w).2⟩ = s2 at k1 k2 k3
  obtain ⟨pc2, w2⟩ := s2
  simp only at k1 k2 k3
  subst k1
  simp only [resetAll_eq, rosOk, acts_append, acts_resetAll] at k2 k3
  simp only [run, step, hnone, promptUser_eq, hok, hauto, k3]
  by_cases hc : env.cin w.cinReads = 'n' <;>
    simp [hc, Event.act, cycleActs, k2]

/-- In interactive mode, `k` cycles whose repeat question is answered by
something else than `n` and one whose question is answered `n`, every pick and
place succeeding at once. -/
theorem run_cycles_ok (self : SimplePickPlace) (env : Env) (blocks : List MetaBlock)
    (hauto : self.auto_reset_ = false)
    (hok : ∀ i, env.ok i = true) (hpick : ∀ i name grasps, env.movePick i name grasps = true)
    (hplace : ∀ i name locs, env.movePlace i name locs = true) (k : Nat) :
    ∀ w : World, (∀ j, j < k → env.cin (w.cinReads + j) ≠ 'n') → env.cin (w.cinReads + k) = 'n' →
      (run self env blocks ((k + 1) * (2 * blocks.length + 3)) ⟨PC.outerLoop, w⟩).pc =
          PC.returned ∧
        acts (run self env blocks ((k + 1) * (2 * blocks.length + 3)) ⟨PC.outerLoop, w⟩).w.trace =
          acts w.trace ++ (List.replicate (k + 1) (cycleActs blocks)).flatten := by
  induction k with
  | zero =>
    intro w _ hno
    obtain ⟨h1, h2, -⟩ := run_cycle_ok self env blocks hauto hok hpick hplace w
    simp only [Nat.add_zero] at hno
    simp only [Nat.zero_add, Nat.one_mul]
    refine ⟨by simpa [hno] using h1, by simpa using h2⟩
  | succ k ih =>
    intro w hyes hno
    obtain ⟨h1, h2, h3⟩ := run_cycle_ok self env blocks hauto hok hpick hplace w
    have h0 : env.cin w.cinReads ≠ 'n' := by simpa using hyes 0 (by omega)
    rw [if_neg h0] at h1
    have hsteps : (k + 1 + 1) * (2 * blocks.length + 3) =
        (2 * blocks.length + 3) + (k + 1) * (2 * blocks.length + 3) := by ring
    rw [hsteps, run_add, State.eq_mk _ _ h1]
    obtain ⟨k1, k2⟩ := ih (run self env blocks (2 * blocks.length + 3) ⟨PC.outerLoop, w⟩).w
      (by
        intro j hj
        rw [h3]
        have := hyes (j + 1) (by omega)
        rwa [show w.cinReads + 1 + j = w.cinReads + (j + 1) by omega])
      (by
        rw [h3]
        rwa [show w.cinReads + 1 + k = w.cinReads + (k + 1) by omega])
    refine ⟨k1, ?_⟩
    rw [k2, h2]
    simp [List.replicate_succ]

/-- From the entry of the constructor through `k + 1` cycles in which
everything succeeds, in interactive mode: `startRoutine` has returned. -/
theorem run_all_succeed (self : SimplePickPlace) (env : Env) (blocks : List MetaBlock) (k : Nat)
    (hauto : self.auto_reset_ = false) (hen : env.enableBaxter = true)
    (hok : ∀ i, env.ok i = true) (hpick : ∀ i name grasps, env.movePick i name grasps = true)
    (hplace : ∀ i name locs, env.movePlace i name locs = true)
    (hyes : ∀ j, j < k → env.cin j ≠ 'n') (hno : env.cin k = 'n') :
    (run self env blocks (1 + (k + 1) * (2 * blocks.length + 3)) ⟨PC.start, World.init⟩).pc =
        PC.returned ∧
      acts (run self env blocks (1 + (k + 1) * (2 * blocks.length + 3))
        ⟨PC.start, World.init⟩).w.trace = (List.replicate (k + 1) (cycleActs blocks)).flatten := by
  rw [run_add]
  obtain ⟨w0, h1, hacts0, hcin0⟩ : ∃ w0 : World,
      run self env blocks 1 ⟨PC.start, World.init⟩ = ⟨PC.outerLoop, w0⟩ ∧
      acts w0.trace = [] ∧ w0.cinReads = 0 :=
    ⟨_, by simp only [run, step, hen]; rfl, by simp [World.emit, World.init, Event.act],
      by simp [World.emit, World.init]⟩
  rw [h1]
  obtain ⟨k1, k2⟩ := run_cycles_ok self env blocks hauto hok hpick hplace k w0
    (by simpa [hcin0] using hyes) (by simpa [hcin0] using hno)
  exact ⟨k1, by rw [k2, hacts0]; simp⟩

/-- Claim C7. Interactive mode, the robot enabled, `ros::ok()` always true,
every pick and every place succeeding at once, and the repeat question answered
`k` times by something else than `n` and then by `n`.  For every list of
blocks, the run ends with `main` returning, the robot disabled as its last act
but `ros::shutdown()`, and its manipulation calls are exactly `k + 1` cycles,
each cycle being the reset of all blocks in list order followed, for each block
in list order, by one pick and one place. -/
theorem all_succeed_cycles (self : SimplePickPlace) (env : Env) (blocks : List MetaBlock)
    (k m : Nat) (hauto : self.auto_reset_ = false) (hen : env.enableBaxter = true)
    (hok : ∀ i, env.ok i = true) (hpick : ∀ i name grasps, env.movePick i name grasps = true)
    (hplace : ∀ i name locs, env.movePlace i name locs = true)
    (hyes : ∀ j, j < k → env.cin j ≠ 'n') (hno : env.cin k = 'n') :
    (run self env blocks (1 + (k + 1) * (2 * blocks.length + 3) + (1 + m))
        ⟨PC.start, World.init⟩).pc = PC.finished ∧
      acts (run self env blocks (1 + (k + 1) * (2 * blocks.length + 3) + (1 + m))
        ⟨PC.start, World.init⟩).w.trace =
        (List.replicate (k + 1)
          (blocks.flatMap resetActs ++
            blocks.flatMap fun b => pickActs b true ++ placeActs b true)).flatten ∧
      ∃ t, (run self env blocks (1 + (k + 1) * (2 * blocks.length + 3) + (1 + m))
        ⟨PC.start, World.init⟩).w.trace = t ++ [Event.disableBaxter, Event.rosShutdown] := by
  obtain ⟨h1, h2⟩ := run_all_succeed self env blocks k hauto hen hok hpick hplace hyes hno
  rw [run_add, State.eq_mk _ _ h1, run_add]
  have hlast : ∀ w, run self env blocks 1 ⟨PC.returned, w⟩ =
      ⟨PC.finished, (w.emit Event.disableBaxter).emit Event.rosShutdown⟩ := by
    intro w; simp [run, step]
  rw [hlast, run_finished]
  refine ⟨rfl, ?_, ⟨(run self env blocks (1 + (k + 1) * (2 * blocks.length + 3))
    ⟨PC.start, World.init⟩).w.trace, by simp [World.emit]⟩⟩
  simp only [World.emit, acts_append, h2]
  simp [Event.act, cycleActs]

/-- The case of C7 with the three blocks of `startRoutine` and `k = 1`: two
cycles, each block reset, picked and placed twice. -/
theorem all_succeed_cycles_witness :
    (run (interactive demoData)
        (demoEnv (fun _ => true) (fun i => if i = 0 then 'y' else 'n') [demoGrasp]
          (fun _ => true) (fun _ => true))
        (startBlocks demoData
          (demoEnv (fun _ => true) (fun i => if i = 0 then 'y' else 'n') [demoGrasp]
            (fun _ => true) (fun _ => true)))
        20 ⟨PC.start, World.init⟩).pc = PC.finished ∧
      acts (run (interactive demoData)
        (demoEnv (fun _ => true) (fun i => if i = 0 then 'y' else 'n') [demoGrasp]
          (fun _ => true) (fun _ => true))
        (startBlocks demoData
          (demoEnv (fun _ => true) (fun i => if i = 0 then 'y' else 'n') [demoGrasp]
            (fun _ => true) (fun _ => true)))
        20 ⟨PC.start, World.init⟩).w.trace =
        cycleActs (startBlocks demoData
          (demoEnv (fun _ => true) (fun i => if i = 0 then 'y' else 'n') [demoGrasp]
            (fun _ => true) (fun _ => true))) ++
        cycleActs (startBlocks demoData
          (demoEnv (fun _ => true) (fun i => if i = 0 then 'y' else 'n') [demoGrasp]
            (fun _ => true) (fun _ => true))) := by
  have h := all_succeed_cycles (interactive demoData)
    (demoEnv (fun _ => true) (fun i => if i = 0 then 'y' else 'n') [demoGrasp]
      (fun _ => true) (fun _ => true))
    (startBlocks demoData
      (demoEnv (fun _ => true) (fun i => if i = 0 then 'y' else 'n') [demoGrasp]
        (fun _ => true) (fun _ => true)))
    1 0 rfl rfl (fun _ => rfl) (fun _ _ _ => rfl) (fun _ _ _ => rfl)
    (by intro j hj; have : j = 0 := by omega
        subst this; simp [demoEnv])
    (by simp [demoEnv])
  have hlen : (startBlocks demoData
      (demoEnv (fun _ => true) (fun i => if i = 0 then 'y' else 'n') [demoGrasp]
        (fun _ => true) (fun _ => true))).length = 3 := by simp [startBlocks]
  rw [hlen] at h
  refine ⟨h.1, ?_⟩
  rw [h.2.1]
  simp [List.replicate, cycleActs]

/-! ## After the shutdown signal -/

theorem run_invariant (self : SimplePickPlace) (env : Env) (blocks : List MetaBlock)
    (Inv : State → Prop) (hstep : ∀ s, Inv s → Inv (step self env blocks s)) :
    ∀ (n : Nat) (s : State), Inv s → Inv (run self env blocks n s) := by
  intro n
  induction n with
  | zero => intro s hs; exact hs
  | succ n ih => intro s hs; exact ih _ (hstep s hs)

theorem afterShutdown_append (a b : List Event) :
    afterShutdown (a ++ b) =
      if Event.rosOk false ∈ a then afterShutdown a ++ b else afterShutdown b := by
  induction a with
  | nil => simp
  | cons e a ih =>
    by_cases he : e = Event.rosOk false
    · subst he; simp [afterShutdown]
    · have h1 : afterShutdown (e :: (a ++ b)) = afterShutdown (a ++ b) := by
        cases e <;> first | rfl | (rename_i x; cases x <;> first | rfl | exact absurd rfl he)
      have h2 : afterShutdown (e :: a) = afterShutdown a := by
        cases e <;> first | rfl | (rename_i x; cases x <;> first | rfl | exact absurd rfl he)
      have h3 : (Event.rosOk false ∈ e :: a) ↔ Event.rosOk false ∈ a := by
        simp [Ne.symm he]
      simp only [List.cons_append, h1, h2, h3, ih]

/-- What follows a `rosOk false` in a trace follows the first one. -/
theorem mem_afterShutdown (pre post : List Event) (e : Event) (he : e ∈ post) :
    e ∈ afterShutdown (pre ++ Event.rosOk false :: post) := by
  rw [afterShutdown_append]
  split
  · exact List.mem_append_right _ (List.mem_cons_of_mem _ he)
  · simpa [afterShutdown] using he

theorem quiet_extend (env : Env) (w w' : World) (batch : List Event)
    (htrace : w'.trace = w.trace ++ batch) (hpolls : w.okPolls ≤ w'.okPolls)
    (h : QuietInv env w)
    (h1 : Down env w → ∀ e ∈ batch, e.isQuiet = true)
    (h2 : ∀ e ∈ afterShutdown batch, e.isQuiet = true)
    (h3 : Event.rosOk false ∈ batch → Down env w') :
    QuietInv env w' := by
  obtain ⟨hq, hd⟩ := h
  unfold QuietInv
  rw [htrace, afterShutdown_append]
  by_cases hm : Event.rosOk false ∈ w.trace
  · have hD := hd hm
    refine ⟨?_, fun _ j hj => hD j (by omega)⟩
    rw [if_pos hm]
    intro e he
    rcases List.mem_append.mp he with he | he
    · exact hq e he
    · exact h1 hD e he
  · rw [if_neg hm]
    refine ⟨h2, ?_⟩
    intro hmem
    rcases List.mem_append.mp hmem with hmem | hmem
    · exact absurd hmem hm
    · exact h3 hmem

/-- A world with no `rosOk false` yet. -/
theorem quietInv_of_live (env : Env) (w : World) (h : Event.rosOk false ∉ w.trace) :
    QuietInv env w := by
  refine ⟨?_, fun hm => absurd hm h⟩
  have : afterShutdown w.trace = [] := by
    have := afterShutdown_append w.trace []
    simpa [h, afterShutdown] using this
  simp [this]

theorem quietInv_rosOk (env : Env) (hmono : ∀ i j, i ≤ j → env.ok i = false → env.ok j = false)
    (w : World) (h : QuietInv env w) : QuietInv env (rosOk env w).2 := by
  refine quiet_extend env w _ [Event.rosOk (env.ok w.okPolls)] rfl (by simp [rosOk]) h ?_ ?_ ?_
  · intro hD e he
    have := hD w.okPolls (Nat.le_refl _)
    simp [this] at he
    simp [he, Event.isQuiet]
  · cases env.ok w.okPolls <;> simp [afterShutdown]
  · intro hm j hj
    have h0 : env.ok w.okPolls = false := by simpa using hm
    exact hmono _ _ (by simp [rosOk] at hj; omega) h0

/-- Once `ros::ok()` has answered `false` it does so again. -/
theorem rosOk_false_of_down (env : Env) (w : World) (h : QuietInv env w)
    (hm : Event.rosOk false ∈ w.trace) : (rosOk env w).1 = false :=
  h.2 hm w.okPolls (Nat.le_refl _)

theorem live_rosOk (env : Env) (w : World) (h : Event.rosOk false ∉ w.trace)
    (hok : (rosOk env w).1 = true) : Event.rosOk false ∉ (rosOk env w).2.trace := by
  simp only [rosOk] at hok
  simp [rosOk, h, hok]

theorem live_emit (w : World) (e : Event) (h : Event.rosOk false ∉ w.trace)
    (he : e ≠ Event.rosOk false) : Event.rosOk false ∉ (w.emit e).trace := by
  simp [World.emit, h, Ne.symm he]

theorem live_pick (self : SimplePickPlace) (env : Env) (pose : Pose) (name : String) (w : World)
    (h : Event.rosOk false ∉ w.trace) :
    Event.rosOk false ∉ (pick self env pose name w).2.trace := by
  simp [pick_eq, h]

theorem live_place (self : SimplePickPlace) (env : Env) (pose : Pose) (name : String) (w : World)
    (h : Event.rosOk false ∉ w.trace) :
    Event.rosOk false ∉ (place self env pose name w).2.trace := by
  simp [place_eq, h]

theorem live_resetBlock (self : SimplePickPlace) (b : MetaBlock) (w : World)
    (h : Event.rosOk false ∉ w.trace) :
    Event.rosOk false ∉ (resetBlock self b w).trace := by
  simp [resetBlock_eq, h]

theorem live_resetAll (self : SimplePickPlace) (blocks : List MetaBlock) (w : World)
    (h : Event.rosOk false ∉ w.trace) :
    Event.rosOk false ∉ (resetAll self blocks w).trace := by
  simp [resetAll_eq, h]

theorem quietInv_promptUser (self : SimplePickPlace) (env : Env)
    (hmono : ∀ i j, i ≤ j → env.ok i = false → env.ok j = false)
    (w : World) (h : QuietInv env w) : QuietInv env (promptUser self env w).2 := by
  rw [promptUser_eq]
  split_ifs with h1 h2
  · refine quiet_extend env w _ [Event.rosOk false] rfl (by simp) h ?_ ?_ ?_
    · intro _ e he
      simp at he
      simp [he, Event.isQuiet]
    · simp [afterShutdown]
    · intro _ j hj
      exact hmono _ _ (by simp at hj; omega) h1
  · refine quiet_extend env w _ [Event.rosOk true, Event.sleep self.auto_reset_sec_] rfl
      (by simp) h ?_ ?_ ?_
    · intro hD
      exact absurd (hD w.okPolls (Nat.le_refl _)) h1
    · simp [afterShutdown]
    · simp
  · refine quiet_extend env w _ [Event.rosOk true, Event.cinRead (env.cin w.cinReads)] rfl
      (by simp) h ?_ ?_ ?_
    · intro hD
      exact absurd (hD w.okPolls (Nat.le_refl _)) h1
    · simp [afterShutdown]
    · simp

theorem promptUser_false_of_down (self : SimplePickPlace) (env : Env) (w : World)
    (h : QuietInv env w) (hm : Event.rosOk false ∈ w.trace) :
    (promptUser self env w).1 = false := by
  have := h.2 hm w.okPolls (Nat.le_refl _)
  simp [promptUser_eq, this]

theorem live_promptUser (self : SimplePickPlace) (env : Env) (w : World)
    (h : Event.rosOk false ∉ w.trace) (hyes : (promptUser self env w).1 = true) :
    Event.rosOk false ∉ (promptUser self env w).2.trace := by
  rw [promptUser_eq] at hyes ⊢
  split_ifs at hyes ⊢ <;> simp_all

theorem quietInv_emit_quiet (env : Env) (w : World) (e : Event) (h : QuietInv env w)
    (he : e.isQuiet = true) (hne : e ≠ Event.rosOk false) : QuietInv env (w.emit e) := by
  refine quiet_extend env w _ [e] rfl (Nat.le_refl _) h ?_ ?_ ?_
  · intro _ e' he'
    simp at he'
    simp [he', he]
  · have : afterShutdown [e] = [] := by
      cases e <;> first | rfl | (rename_i x; cases x <;> rfl)
    simp [this]
  · intro hm
    simp at hm
    exact absurd hm.symm hne

/-- Every step keeps the invariant behind C9. -/
theorem step_quiet (self : SimplePickPlace) (env : Env) (blocks : List MetaBlock)
    (hmono : ∀ i j, i ≤ j → env.ok i = false → env.ok j = false) (s : State)
    (h : QuietInv env s.w) (hstart : s.pc = PC.start → Event.rosOk false ∉ s.w.trace) :
    QuietInv env (step self env blocks s).w := by
  obtain ⟨pc, w⟩ := s
  simp only at h hstart
  have hr := quietInv_rosOk env hmono w h
  have hlive : (rosOk env w).1 = true → Event.rosOk false ∉ (rosOk env w).2.trace := by
    intro hok
    by_cases hm : Event.rosOk false ∈ w.trace
    · rw [rosOk_false_of_down env w h hm] at hok; exact absurd hok (by simp)
    · exact live_rosOk env w hm hok
  have hexit : ∀ w0, QuietInv env w0 → (promptUser self env w0).1 = false →
      QuietInv env ((promptUser self env w0).2.emit (Event.exit 0)) := fun w0 h0 _ =>
    quietInv_emit_quiet env _ _ (quietInv_promptUser self env hmono w0 h0) rfl (by simp)
  cases pc with
  | start =>
    have hl := hstart rfl
    simp only [step]
    split <;> exact quietInv_of_live env _ (by simp [World.emit, hl])
  | outerLoop =>
    simp only [step]
    cases hok : (rosOk env w).1
    · simpa using hr
    · simpa using quietInv_of_live env _ (live_resetAll self blocks _ (hlive hok))
  | pickLoop i =>
    cases hb : blocks[i]? with
    | none => simpa [step, hb] using h
    | some b =>
      rw [step_pickLoop self env blocks i b w hb]
      cases hok : (rosOk env w).1
      · simpa using hr
      · have hl1 := live_pick self env b.start_pose b.name _
          (live_emit _ (Event.publishBlock b.start_pose self.data.BLOCK_SIZE false) (hlive hok)
            (by simp))
        simp only [Bool.true_eq_false, if_false]
        split_ifs with hp hq
        · exact quietInv_of_live env _ hl1
        · exact quietInv_of_live env _ (live_resetBlock self b _ (live_promptUser self env _ hl1 hq))
        · exact hexit _ (quietInv_of_live env _ hl1) (by simpa using hq)
  | placeLoop i =>
    cases hb : blocks[i]? with
    | none => simpa [step, hb] using h
    | some b =>
      rw [step_placeLoop self env blocks i b w hb]
      cases hok : (rosOk env w).1
      · simpa using hr
      · have hl1 := live_place self env b.goal_pose b.name _
          (live_emit _ (Event.publishBlock b.goal_pose self.data.BLOCK_SIZE true) (hlive hok)
            (by simp))
        simp only [Bool.true_eq_false, if_false]
        split_ifs with hp hq
        · exact quietInv_of_live env _ hl1
        · exact quietInv_of_live env _ (live_promptUser self env _ hl1 hq)
        · exact hexit _ (quietInv_of_live env _ hl1) (by simpa using hq)
  | askRepeat =>
    simp only [step]
    split <;> exact quietInv_promptUser self env hmono w h
  | returned =>
    simp only [step]
    exact quietInv_emit_quiet env _ _ (quietInv_emit_quiet env _ _ h rfl (by simp)) rfl (by simp)
  | finished => simpa [step] using h
  | exited => simpa [step] using h

/-- No step leads back to the entry of the constructor. -/
theorem step_pc_ne_start (self : SimplePickPlace) (env : Env) (blocks : List MetaBlock)
    (s : State) : (step self env blocks s).pc ≠ PC.start := by
  obtain ⟨pc, w⟩ := s
  cases pc with
  | pickLoop i =>
    cases hb : blocks[i]? with
    | none => simp [step, hb]
    | some b => rw [step_pickLoop self env blocks i b w hb]; split_ifs <;> simp
  | placeLoop i =>
    cases hb : blocks[i]? with
    | none => simp [step, hb]
    | some b => rw [step_placeLoop self env blocks i b w hb]; split_ifs <;> simp
  | _ => simp only [step]; first | split <;> simp | simp

theorem isQuiet_iff (e : Event) :
    e.isQuiet = true ↔
      e = Event.rosOk false ∨ e = Event.exit 0 ∨ e = Event.disableBaxter ∨
        e = Event.rosShutdown := by
  constructor
  · intro h
    cases e with
    | rosOk b => cases b <;> simp_all [Event.isQuiet]
    | exit code =>
      by_cases hc : code = 0
      · simp [hc]
      · exfalso
        unfold Event.isQuiet at h
        split at h <;> simp_all
    | _ => simp_all [Event.isQuiet]
  · rintro (rfl | rfl | rfl | rfl) <;> rfl

/-- The process has ended when no step is left. -/
theorem stepsLeft_eq_zero (n : Nat) (pc : PC) (h : stepsLeft n pc = 0) :
    pc = PC.finished ∨ pc = PC.exited := by
  cases pc <;> simp_all [stepsLeft]

/-- No step takes back a poll of `ros::ok()`. -/
theorem step_okPolls_le (self : SimplePickPlace) (env : Env) (blocks : List MetaBlock)
    (s : State) : s.w.okPolls ≤ (step self env blocks s).w.okPolls := by
  obtain ⟨pc, w⟩ := s
  cases pc with
  | start => simp only [step]; split <;> simp [World.emit]
  | outerLoop => simp only [step]; split <;> simp [rosOk, resetAll_eq]
  | pickLoop i =>
    cases hb : blocks[i]? with
    | none => simp [step, hb]
    | some b =>
      rw [step_pickLoop self env blocks i b w hb]
      simp only [pick_eq, promptUser_eq, resetBlock_eq, rosOk, World.emit]
      split_ifs <;> (try simp) <;> omega
  | placeLoop i =>
    cases hb : blocks[i]? with
    | none => simp [step, hb]
    | some b =>
      rw [step_placeLoop self env blocks i b w hb]
      simp only [place_eq, promptUser_eq, rosOk, World.emit]
      split_ifs <;> (try simp) <;> omega
  | askRepeat =>
    simp only [step, promptUser_eq]
    split_ifs <;> simp
  | returned => simp [step, World.emit]
  | finished => simp [step]
  | exited => simp [step]

/-- Once `ros::ok()` answers `false` for good, every step brings the end nearer. -/
theorem step_stepsLeft_down (self : SimplePickPlace) (env : Env) (blocks : List MetaBlock)
    (s : State) (hD : Down env s.w) (h : stepsLeft blocks.length s.pc ≠ 0) :
    stepsLeft blocks.length (step self env blocks s).pc < stepsLeft blocks.length s.pc := by
  obtain ⟨pc, w⟩ := s
  have hok : (rosOk env w).1 = false := hD w.okPolls (Nat.le_refl _)
  have hno : (promptUser self env w).1 = false := by
    have := hD w.okPolls (Nat.le_refl _)
    simp [promptUser_eq, this]
  cases pc with
  | start => simp only [step]; split <;> simp [stepsLeft]
  | outerLoop => simp [step, hok, stepsLeft]
  | pickLoop i =>
    cases hb : blocks[i]? with
    | none => simp [step, hb, stepsLeft]
    | some b =>
      rw [step_pickLoop _ env blocks i b w hb]
      simp [hok, stepsLeft]
  | placeLoop i =>
    cases hb : blocks[i]? with
    | none => simp [step, hb, stepsLeft]
    | some b =>
      have hi : i < blocks.length := by
        by_contra hge
        have : blocks[i]? = none := List.getElem?_eq_none (by omega)
        simp [this] at hb
      rw [step_placeLoop _ env blocks i b w hb]
      simp only [hok, Bool.not_false, if_true, stepsLeft]
      omega
  | askRepeat => simp [step, hno, stepsLeft]
  | returned => simp [step, stepsLeft]
  | finished => simp [stepsLeft] at h
  | exited => simp [stepsLeft] at h

/-- Once `ros::ok()` answers `false` for good, the run ends. -/
theorem run_ends_down (self : SimplePickPlace) (env : Env) (blocks : List MetaBlock) :
    ∀ (N : Nat) (s : State), Down env s.w → stepsLeft blocks.length s.pc ≤ N →
      stepsLeft blocks.length (run self env blocks N s).pc = 0 := by
  intro N
  induction N with
  | zero => intro s _ hs; simpa [run] using hs
  | succ N ih =>
    intro s hD hs
    by_cases h0 : stepsLeft blocks.length s.pc = 0
    · obtain ⟨pc, w⟩ := s
      rcases stepsLeft_eq_zero _ _ h0 with h | h <;> simp only at h <;> subst h
      · rw [run_finished]; rfl
      · rw [run_exited]; rfl
    · have := step_stepsLeft_down self env blocks s hD h0
      have hle := step_okPolls_le self env blocks s
      exact ih _ (fun j hj => hD j (by omega)) (by omega)

/-- The number of steps left after the entry of the constructor. -/
theorem stepsLeft_le (n : Nat) (pc : PC) (h : pc ≠ PC.start) : stepsLeft n pc ≤ 2 * n + 5 := by
  cases pc <;> simp_all [stepsLeft] <;> omega

/-- Claim C9. When `ros::ok()` never answers `true` again once it has answered
`false`, then in every run (any mode, any blocks, any answers, any number of
steps) every call made after a `ros::ok()` that answered `false` is another
`ros::ok()` answering `false`, `exit(0)`, `disableBaxter()` or
`ros::shutdown()`: no pick, place, reset, sleep or read of the operator.  And
every loop ends: `2 * n + 5` steps after a state in which `ros::ok()` has
answered `false`, for `n` blocks, the process has ended, in `main` returning
or in `exit(0)`. -/
theorem quiet_after_shutdown (self : SimplePickPlace) (env : Env) (blocks : List MetaBlock)
    (n : Nat) (hmono : ∀ i j, i ≤ j → env.ok i = false → env.ok j = false)
    (pre post : List Event)
    (h : (run self env blocks n ⟨PC.start, World.init⟩).w.trace =
      pre ++ Event.rosOk false :: post) :
    (∀ e ∈ post, e = Event.rosOk false ∨ e = Event.exit 0 ∨ e = Event.disableBaxter ∨
      e = Event.rosShutdown) ∧
    ∀ m, (run self env blocks (n + (2 * blocks.length + 5) + m) ⟨PC.start, World.init⟩).pc =
        PC.finished ∨
      (run self env blocks (n + (2 * blocks.length + 5) + m) ⟨PC.start, World.init⟩).pc =
        PC.exited := by
  have hinv : QuietInv env (run self env blocks n ⟨PC.start, World.init⟩).w ∧
      ((run self env blocks n ⟨PC.start, World.init⟩).pc = PC.start →
        Event.rosOk false ∉ (run self env blocks n ⟨PC.start, World.init⟩).w.trace) := by
    refine run_invariant self env blocks
      (fun s => QuietInv env s.w ∧ (s.pc = PC.start → Event.rosOk false ∉ s.w.trace))
      ?_ n _ ⟨quietInv_of_live env _ (by simp [World.init]), fun _ => by simp [World.init]⟩
    intro s hs
    exact ⟨step_quiet self env blocks hmono s hs.1 hs.2,
      fun hpc => absurd hpc (step_pc_ne_start self env blocks s)⟩
  have hmem : Event.rosOk false ∈ (run self env blocks n ⟨PC.start, World.init⟩).w.trace := by
    rw [h]; simp
  constructor
  · intro e he
    have := hinv.1.1 e (by rw [h]; exact mem_afterShutdown pre post e he)
    exact (isQuiet_iff e).mp this
  · intro m
    rw [Nat.add_assoc, run_add]
    have hpc : (run self env blocks n ⟨PC.start, World.init⟩).pc ≠ PC.start :=
      fun hpc => hinv.2 hpc hmem
    exact stepsLeft_eq_zero _ _
      (run_ends_down self env blocks _ _ (hinv.1.2 hmem)
        (le_trans (stepsLeft_le _ _ hpc) (by omega)))

/-- The run of C5 (shutdown during a failing first pick) as a case of C9: after
the `ros::ok()` that answers `false` comes `exit(0)` alone, and the process has
ended. -/
theorem quiet_after_shutdown_witness :
    (main demoData
        (demoEnv (fun i => decide (i < 2)) (fun _ => 'y') [demoGrasp] (fun _ => false)
          (fun _ => true)) 3).w.trace =
      (main demoData
        (demoEnv (fun i => decide (i < 2)) (fun _ => 'y') [demoGrasp] (fun _ => false)
          (fun _ => true)) 3).w.trace.take 20 ++ Event.rosOk false :: [Event.exit 0] ∧
    (∀ e ∈ [Event.exit 0], e = Event.rosOk false ∨ e = Event.exit 0 ∨ e = Event.disableBaxter ∨
      e = Event.rosShutdown) ∧
    ((main demoData
        (demoEnv (fun i => decide (i < 2)) (fun _ => 'y') [demoGrasp] (fun _ => false)
          (fun _ => true)) (3 + (2 * 3 + 5) + 0)).pc = PC.finished ∨
      (main demoData
        (demoEnv (fun i => decide (i < 2)) (fun _ => 'y') [demoGrasp] (fun _ => false)
          (fun _ => true)) (3 + (2 * 3 + 5) + 0)).pc = PC.exited) := by
  have htrace : (main demoData
        (demoEnv (fun i => decide (i < 2)) (fun _ => 'y') [demoGrasp] (fun _ => false)
          (fun _ => true)) 3).w.trace =
      (main demoData
        (demoEnv (fun i => decide (i < 2)) (fun _ => 'y') [demoGrasp] (fun _ => false)
          (fun _ => true)) 3).w.trace.take 20 ++ Event.rosOk false :: [Event.exit 0] := by
    simp [main, run, step, startBlocks, rosOk, pick_eq, promptUser_eq, resetAll_eq, demoEnv,
      World.init, World.emit, SimplePickPlace.new]
  have h := quiet_after_shutdown _ _ _ 3
    (by intro i j hij hi; simp [demoEnv] at hi ⊢; omega) _ _ htrace
  exact ⟨htrace, h.1, h.2 0⟩

/-! ## The order of the manipulation calls -/

@[simp] theorem Phase.after_nil (p : Phase) : p.after [] = some p := rfl

@[simp] theorem Phase.after_cons (p : Phase) (a : Act) (rest : List Act) :
    p.after (a :: rest) = (p.next a).bind fun q => q.after rest := rfl

theorem Phase.after_append (p : Phase) (a b : List Act) :
    p.after (a ++ b) = (p.after a).bind fun q => q.after b := by
  induction a generalizing p with
  | nil => simp
  | cons x a ih =>
    simp only [List.cons_append, Phase.after_cons]
    cases p.next x with
    | none => simp
    | some q => simp [ih]

theorem Phase.after_resets (blocks : List MetaBlock) :
    Phase.idle.after (blocks.flatMap resetActs) = some Phase.idle := by
  induction blocks with
  | nil => rfl
  | cons b rest ih =>
    simp only [List.flatMap_cons, Phase.after_append, resetActs]
    simp [Phase.next, ih]

theorem acts_rosOk (env : Env) (w : World) : acts (rosOk env w).2.trace = acts w.trace := by
  simp [rosOk, Event.act]

theorem acts_pick (self : SimplePickPlace) (env : Env) (pose : Pose) (name : String) (w : World) :
    acts (pick self env pose name w).2.trace =
      acts w.trace ++ [Act.generate pose, Act.pick name (pick self env pose name w).1] := by
  simp [pick_eq, Event.act]

theorem acts_place (self : SimplePickPlace) (env : Env) (pose : Pose) (name : String) (w : World) :
    acts (place self env pose name w).2.trace =
      acts w.trace ++
        [Act.place name (List.replicate 4 pose.position) (place self env pose name w).1] := by
  simp [place_eq, Event.act, placeLocations_position]

theorem acts_promptUser (self : SimplePickPlace) (env : Env) (w : World) :
    acts (promptUser self env w).2.trace = acts w.trace := by
  rw [promptUser_eq]
  split_ifs <;> simp [Event.act]

theorem acts_resetBlock (self : SimplePickPlace) (b : MetaBlock) (w : World) :
    acts (resetBlock self b w).trace = acts w.trace ++ resetActs b := by
  simp [resetBlock_eq, Event.act, resetActs]

theorem acts_resetAll' (self : SimplePickPlace) (blocks : List MetaBlock) (w : World) :
    acts (resetAll self blocks w).trace = acts w.trace ++ blocks.flatMap resetActs := by
  simp [resetAll_eq, acts_resetAll]

theorem step_order (self : SimplePickPlace) (env : Env) (blocks : List MetaBlock)
    (hmono : ∀ i j, i ≤ j → env.ok i = false → env.ok j = false) (s : State)
    (h : OrderInv env blocks s) : OrderInv env blocks (step self env blocks s) := by
  obtain ⟨hquiet, hstart, q, hq, hrel⟩ := h
  refine ⟨step_quiet self env blocks hmono s hquiet hstart,
    fun hpc => absurd hpc (step_pc_ne_start self env blocks s), ?_⟩
  obtain ⟨pc, w⟩ := s
  simp only at hquiet hstart hq hrel
  have hlive : (rosOk env w).1 = true → Event.rosOk false ∉ w.trace := by
    intro hok hm
    rw [rosOk_false_of_down env w hquiet hm] at hok
    exact absurd hok (by simp)
  have hdead : (rosOk env w).1 = false → Event.rosOk false ∈ (rosOk env w).2.trace := by
    intro hok
    simp only [rosOk] at hok
    simp [rosOk, hok]
  cases pc with
  | start =>
    have hl := hstart rfl
    have hq0 := hrel hl
    simp only [PhaseAt] at hq0
    subst hq0
    simp only [step]
    split
    · exact ⟨Phase.idle, by simpa [World.emit, Event.act] using hq, fun _ => trivial⟩
    · exact ⟨Phase.idle, by simpa [World.emit, Event.act] using hq, fun _ => rfl⟩
  | outerLoop =>
    simp only [step]
    cases hok : (rosOk env w).1
    · exact ⟨q, by simpa [acts_rosOk] using hq, fun _ => trivial⟩
    · have hq0 := hrel (hlive hok)
      simp only [PhaseAt] at hq0
      subst hq0
      refine ⟨Phase.idle, ?_, fun _ => Or.inl rfl⟩
      simp [acts_resetAll', acts_rosOk, Phase.after_append, hq, Phase.after_resets]
  | pickLoop i =>
    cases hb : blocks[i]? with
    | none =>
      refine ⟨q, by simpa [step, hb] using hq, ?_⟩
      intro hl
      have hl' : Event.rosOk false ∉ w.trace := by simpa [step, hb] using hl
      have := hrel hl'
      simp only [PhaseAt, hb] at this
      simpa [step, hb, PhaseAt] using this
    | some b =>
      rw [step_pickLoop self env blocks i b w hb]
      cases hok : (rosOk env w).1
      · exact ⟨q, by simpa [acts_rosOk] using hq, fun hl => absurd (hdead hok) (by simpa using hl)⟩
      · have hq0 := hrel (hlive hok)
        simp only [PhaseAt, hb] at hq0
        simp only [Bool.true_eq_false, if_false]
        have hp := acts_pick self env b.start_pose b.name ((rosOk env w).2.emit
          (Event.publishBlock b.start_pose self.data.BLOCK_SIZE false))
        have hacts1 : acts ((rosOk env w).2.emit
            (Event.publishBlock b.start_pose self.data.BLOCK_SIZE false)).trace = acts w.trace := by
          simp [World.emit, acts_rosOk, Event.act]
        rw [hacts1] at hp
        generalize pick self env b.start_pose b.name ((rosOk env w).2.emit
          (Event.publishBlock b.start_pose self.data.BLOCK_SIZE false)) = p at hp ⊢
        have hpr := acts_promptUser self env p.2
        generalize promptUser self env p.2 = r at hpr ⊢
        obtain ⟨pa, pw⟩ := p
        obtain ⟨ra, rw0⟩ := r
        simp only at hp hpr ⊢
        have hqp : Phase.idle.after (acts pw.trace) =
            some (if pa = true then Phase.picked b.name
              else Phase.retry b.name b.start_pose 0) := by
          rw [hp, Phase.after_append, hq]
          rcases hq0 with rfl | ⟨b', hb', rfl⟩
          · cases pa <;> simp [Phase.next]
          · obtain rfl : b = b' := by simpa using hb'
            cases pa <;> simp [Phase.next]
        cases pa
        · cases ra
          · refine ⟨Phase.retry b.name b.start_pose 0, ?_, fun _ => trivial⟩
            simpa [World.emit, Event.act, hpr] using hqp
          · refine ⟨Phase.retry b.name b.start_pose 3, ?_, fun _ => Or.inr ⟨b, hb, rfl⟩⟩
            simp only [Bool.false_eq_true, if_false, if_true] at hqp ⊢
            rw [acts_resetBlock, hpr, Phase.after_append, hqp]
            simp [resetActs, Phase.next]
        · exact ⟨Phase.picked b.name, by simpa using hqp, fun _ => ⟨b, hb, Or.inl rfl⟩⟩
  | placeLoop i =>
    cases hb : blocks[i]? with
    | none =>
      refine ⟨q, by simpa [step, hb] using hq, ?_⟩
      intro hl
      have hl' : Event.rosOk false ∉ w.trace := by simpa [step, hb] using hl
      have := hrel hl'
      simp [PhaseAt, hb] at this
    | some b =>
      rw [step_placeLoop self env blocks i b w hb]
      cases hok : (rosOk env w).1
      · exact ⟨q, by simpa [acts_rosOk] using hq, fun hl => absurd (hdead hok) (by simpa using hl)⟩
      · have hq0 := hrel (hlive hok)
        simp only [PhaseAt, hb] at hq0
        simp only [Bool.true_eq_false, if_false]
        have hp := acts_place self env b.goal_pose b.name ((rosOk env w).2.emit
          (Event.publishBlock b.goal_pose self.data.BLOCK_SIZE true))
        have hacts1 : acts ((rosOk env w).2.emit
            (Event.publishBlock b.goal_pose self.data.BLOCK_SIZE true)).trace = acts w.trace := by
          simp [World.emit, acts_rosOk, Event.act]
        rw [hacts1] at hp
        generalize place self env b.goal_pose b.name ((rosOk env w).2.emit
          (Event.publishBlock b.goal_pose self.data.BLOCK_SIZE true)) = p at hp ⊢
        have hpr := acts_promptUser self env p.2
        generalize promptUser self env p.2 = r at hpr ⊢
        obtain ⟨pa, pw⟩ := p
        obtain ⟨ra, rw0⟩ := r
        simp only at hp hpr ⊢
        have hqp : Phase.idle.after (acts pw.trace) =
            some (if pa = true then Phase.idle
              else Phase.failedPlace b.name (List.replicate 4 b.goal_pose.position)) := by
          rw [hp, Phase.after_append, hq]
          obtain ⟨b', hb', hq1⟩ := hq0
          obtain rfl : b = b' := by simpa using hb'
          rcases hq1 with rfl | rfl <;> cases pa <;> simp [Phase.next]
        cases pa
        · cases ra
          · refine ⟨Phase.failedPlace b.name (List.replicate 4 b.goal_pose.position), ?_,
              fun _ => trivial⟩
            simpa [World.emit, Event.act, hpr] using hqp
          · refine ⟨Phase.failedPlace b.name (List.replicate 4 b.goal_pose.position), ?_,
              fun _ => ⟨b, hb, Or.inr rfl⟩⟩
            simpa [hpr] using hqp
        · exact ⟨Phase.idle, by simpa using hqp, fun _ => Or.inl rfl⟩
  | askRepeat =>
    simp only [step]
    split
    · exact ⟨q, by simpa [acts_promptUser] using hq, fun _ => trivial⟩
    · refine ⟨q, by simpa [acts_promptUser] using hq, fun hl => ?_⟩
      have hl' : Event.rosOk false ∉ w.trace := by
        intro hm
        have := promptUser_false_of_down self env w hquiet hm
        simp_all
      simpa [PhaseAt] using hrel hl'
  | returned =>
    exact ⟨q, by simpa [step, World.emit, Event.act] using hq, fun _ => trivial⟩
  | finished => exact ⟨q, by simpa [step] using hq, fun _ => trivial⟩
  | exited => exact ⟨q, by simpa [step] using hq, fun _ => trivial⟩

/-- Every run keeps the manipulation calls in order. -/
theorem run_order (self : SimplePickPlace) (env : Env) (blocks : List MetaBlock)
    (hmono : ∀ i j, i ≤ j → env.ok i = false → env.ok j = false) (n : Nat) :
    ∃ q, Phase.idle.after (acts (run self env blocks n ⟨PC.start, World.init⟩).w.trace) =
      some q := by
  have := run_invariant self env blocks (OrderInv env blocks)
    (step_order self env blocks hmono) n ⟨PC.start, World.init⟩
    ⟨quietInv_of_live env _ (by simp [World.init]), fun _ => by simp [World.init],
      Phase.idle, by simp [World.init], fun _ => rfl⟩
  obtain ⟨-, -, q, hq, -⟩ := this
  exact ⟨q, hq⟩

theorem Phase.next_place {q q' : Phase} {n : String} {pos : List Point} {r : Bool}
    (h : q.next (Act.place n pos r) = some q') :
    (q = Phase.picked n ∨ q = Phase.failedPlace n pos) ∧
      q' = if r = true then Phase.idle else Phase.failedPlace n pos := by
  unfold Phase.next at h
  split at h <;> simp_all

theorem Phase.next_pick {q q' : Phase} {n : String} {r : Bool}
    (h : q.next (Act.pick n r) = some q') :
    ∃ p, (q = Phase.generated p ∨ q = Phase.retry n p 4) ∧
      q' = if r = true then Phase.picked n else Phase.retry n p 0 := by
  unfold Phase.next at h
  split at h <;> simp_all

theorem Phase.next_generate {q q' : Phase} {p : Pose}
    (h : q.next (Act.generate p) = some q') :
    (q = Phase.idle ∧ q' = Phase.generated p) ∨
      ∃ n, q = Phase.retry n p 3 ∧ q' = Phase.retry n p 4 := by
  unfold Phase.next at h
  split at h <;> simp_all

theorem Phase.next_eq_idle {q : Phase} {a : Act} (h : q.next a = some Phase.idle) :
    (q = Phase.idle ∧ ((∃ n, a = Act.removeAttached n) ∨ (∃ n, a = Act.removeCollision n) ∨
        ∃ n p, a = Act.publishCollision n p)) ∨
      ∃ n pos, a = Act.place n pos true := by
  unfold Phase.next at h
  split at h <;> simp_all

theorem Phase.next_eq_generated {q : Phase} {a : Act} {p : Pose}
    (h : q.next a = some (Phase.generated p)) : q = Phase.idle ∧ a = Act.generate p := by
  unfold Phase.next at h
  split at h <;> simp_all

theorem Phase.next_eq_picked {q : Phase} {a : Act} {n : String}
    (h : q.next a = some (Phase.picked n)) : a = Act.pick n true := by
  unfold Phase.next at h
  split at h <;> simp_all

theorem Phase.next_eq_failedPlace {q : Phase} {a : Act} {n : String} {pos : List Point}
    (h : q.next a = some (Phase.failedPlace n pos)) :
    a = Act.place n pos false ∧ (q = Phase.picked n ∨ q = Phase.failedPlace n pos) := by
  unfold Phase.next at h
  split at h <;> simp_all

theorem Phase.next_eq_retry {q : Phase} {a : Act} {n : String} {p : Pose} {k : Nat}
    (h : q.next a = some (Phase.retry n p k)) :
    (k = 0 ∧ a = Act.pick n false) ∨
      (k = 1 ∧ a = Act.removeAttached n ∧ q = Phase.retry n p 0) ∨
      (k = 2 ∧ a = Act.removeCollision n ∧ q = Phase.retry n p 1) ∨
      (k = 3 ∧ a = Act.publishCollision n p ∧ q = Phase.retry n p 2) ∨
      (k = 4 ∧ a = Act.generate p ∧ q = Phase.retry n p 3) := by
  unfold Phase.next at h
  split at h <;> simp_all

theorem List.eq_nil_or_concat' {α : Type} (l : List α) :
    l = [] ∨ ∃ init a, l = init ++ [a] := by
  rcases List.eq_nil_or_concat l with h | ⟨init, a, h⟩
  · exact Or.inl h
  · exact Or.inr ⟨init, a, by rw [h, List.concat_eq_append]⟩

theorem Phase.after_snoc {q0 q : Phase} {init : List Act} {a : Act}
    (h : q0.after (init ++ [a]) = some q) :
    ∃ q2, q0.after init = some q2 ∧ q2.next a = some q := by
  rw [Phase.after_append] at h
  cases h1 : q0.after init with
  | none => simp [h1] at h
  | some q2 =>
    refine ⟨q2, rfl, ?_⟩
    simp only [h1, Option.some_bind, Phase.after_cons] at h
    cases h2 : q2.next a with
    | none => simp [h2] at h
    | some q3 => simpa [h2] using h

theorem Phase.after_split {q0 q : Phase} {pre post : List Act} {a : Act}
    (h : q0.after (pre ++ a :: post) = some q) :
    ∃ q1 q2, q0.after pre = some q1 ∧ q1.next a = some q2 ∧ q2.after post = some q := by
  rw [Phase.after_append] at h
  cases h1 : q0.after pre with
  | none => simp [h1] at h
  | some q1 =>
    simp only [h1, Option.some_bind, Phase.after_cons] at h
    cases h2 : q1.next a with
    | none => simp [h2] at h
    | some q2 => exact ⟨q1, q2, rfl, h2, by simpa [h2] using h⟩

theorem Phase.picked_last {n : String} {pre : List Act}
    (h : Phase.idle.after pre = some (Phase.picked n)) :
    ∃ p1, pre = p1 ++ [Act.pick n true] := by
  rcases List.eq_nil_or_concat' pre with rfl | ⟨init, a, rfl⟩
  · simp at h
  · obtain ⟨q2, -, h2⟩ := Phase.after_snoc h
    exact ⟨init, by rw [Phase.next_eq_picked h2]⟩

theorem Phase.failedPlace_last {n : String} {pos : List Point} :
    ∀ pre : List Act, Phase.idle.after pre = some (Phase.failedPlace n pos) →
      ∃ p1 p2, pre = p1 ++ Act.pick n true :: p2 ∧ ∀ a ∈ p2, a = Act.place n pos false := by
  intro pre
  induction pre using List.reverseRecOn with
  | nil => intro h; simp at h
  | append_singleton init a ih =>
    intro h
    obtain ⟨q2, h1, h2⟩ := Phase.after_snoc h
    obtain ⟨rfl, hq2 | hq2⟩ := Phase.next_eq_failedPlace h2
    · subst hq2
      obtain ⟨p1, rfl⟩ := Phase.picked_last h1
      exact ⟨p1, [Act.place n pos false], by simp, by simp⟩
    · subst hq2
      obtain ⟨p1, p2, rfl, hp2⟩ := ih h1
      refine ⟨p1, p2 ++ [Act.place n pos false], by simp, ?_⟩
      intro a ha
      rcases List.mem_append.mp ha with ha | ha
      · exact hp2 a ha
      · simpa using ha

/-- In an ordered list of calls, a place of `n` comes after a pick of `n` that
succeeded, with only failed places of `n` in between. -/
theorem Phase.place_after_pick {q : Phase} {pre post : List Act} {n : String}
    {pos : List Point} {r : Bool}
    (h : Phase.idle.after (pre ++ Act.place n pos r :: post) = some q) :
    ∃ p1 p2, pre = p1 ++ Act.pick n true :: p2 ∧ ∀ a ∈ p2, a = Act.place n pos false := by
  obtain ⟨q1, q2, h1, h2, -⟩ := Phase.after_split h
  obtain ⟨hq1 | hq1, -⟩ := Phase.next_place h2
  · subst hq1
    obtain ⟨p1, rfl⟩ := Phase.picked_last h1
    exact ⟨p1, [], rfl, by simp⟩
  · subst hq1
    exact Phase.failedPlace_last pre h1

theorem Phase.idle_last :
    ∀ init : List Act, Phase.idle.after init = some Phase.idle →
      (∀ a ∈ init, a.isMotion = false) ∨
        ∃ p1 n pos p2, init = p1 ++ Act.place n pos true :: p2 ∧
          ∀ a ∈ p2, a.isMotion = false := by
  intro init
  induction init using List.reverseRecOn with
  | nil => intro _; left; simp
  | append_singleton init a ih =>
    intro h
    obtain ⟨q2, h1, h2⟩ := Phase.after_snoc h
    rcases Phase.next_eq_idle h2 with ⟨rfl, ha⟩ | ⟨n, pos, rfl⟩
    · have hna : a.isMotion = false := by
        rcases ha with ⟨n, rfl⟩ | ⟨n, rfl⟩ | ⟨n, p, rfl⟩ <;> rfl
      rcases ih h1 with hl | ⟨p1, n, pos, p2, rfl, hp2⟩
      · left
        intro x hx
        rcases List.mem_append.mp hx with hx | hx
        · exact hl x hx
        · simp at hx; rw [hx]; exact hna
      · right
        refine ⟨p1, n, pos, p2 ++ [a], by simp, ?_⟩
        intro x hx
        rcases List.mem_append.mp hx with hx | hx
        · exact hp2 x hx
        · simp at hx; rw [hx]; exact hna
    · right
      exact ⟨init, n, pos, [], rfl, by simp⟩

theorem Phase.retry_last {n : String} {p : Pose} :
    ∀ (k : Nat) (pre : List Act), Phase.idle.after pre = some (Phase.retry n p k) →
      ∃ p1, pre = p1 ++ Act.pick n false :: (retryActs n p false).take k := by
  intro k
  induction k with
  | zero =>
    intro pre h
    rcases List.eq_nil_or_concat' pre with rfl | ⟨init, a, rfl⟩
    · simp at h
    · obtain ⟨q2, -, h2⟩ := Phase.after_snoc h
      rcases Phase.next_eq_retry h2 with ⟨-, rfl⟩ | ⟨hk, -⟩ | ⟨hk, -⟩ | ⟨hk, -⟩ | ⟨hk, -⟩ <;>
        first | omega | exact ⟨init, by simp⟩
  | succ j ih =>
    intro pre h
    rcases List.eq_nil_or_concat' pre with rfl | ⟨init, a, rfl⟩
    · simp at h
    · obtain ⟨q2, h1, h2⟩ := Phase.after_snoc h
      rcases Phase.next_eq_retry h2 with ⟨hk, -⟩ | ⟨hk, rfl, rfl⟩ | ⟨hk, rfl, rfl⟩ |
        ⟨hk, rfl, rfl⟩ | ⟨hk, rfl, rfl⟩
      · omega
      all_goals
        simp only [Nat.add_left_inj, Nat.reduceEqDiff] at hk
        subst hk
        obtain ⟨p1, rfl⟩ := ih init h1
        exact ⟨p1, by simp [retryActs]⟩

/-- In an ordered list of calls, the pick or place before a pick of `n`, if
there is one, is a failed pick of `n` or a place that succeeded. -/
theorem Phase.pick_after {q : Phase} {pre post : List Act} {n : String} {r : Bool}
    (h : Phase.idle.after (pre ++ Act.pick n r :: post) = some q) :
    (∀ a ∈ pre, a.isMotion = false) ∨
      ∃ p1 m p2, pre = p1 ++ m :: p2 ∧ (∀ a ∈ p2, a.isMotion = false) ∧
        (m = Act.pick n false ∨ ∃ n0 pos, m = Act.place n0 pos true) := by
  obtain ⟨q1, q2, h1, h2, -⟩ := Phase.after_split h
  obtain ⟨p, hq1 | hq1, -⟩ := Phase.next_pick h2
  · subst hq1
    rcases List.eq_nil_or_concat' pre with rfl | ⟨init, a, rfl⟩
    · simp at h1
    · obtain ⟨q3, h3, h4⟩ := Phase.after_snoc h1
      obtain ⟨rfl, rfl⟩ := Phase.next_eq_generated h4
      rcases Phase.idle_last init h3 with hl | ⟨p1, n0, pos, p2, rfl, hp2⟩
      · left
        intro x hx
        rcases List.mem_append.mp hx with hx | hx
        · exact hl x hx
        · simp at hx; rw [hx]; rfl
      · right
        refine ⟨p1, Act.place n0 pos true, p2 ++ [Act.generate p], by simp, ?_,
          Or.inr ⟨n0, pos, rfl⟩⟩
        intro x hx
        rcases List.mem_append.mp hx with hx | hx
        · exact hp2 x hx
        · simp at hx; rw [hx]; rfl
  · subst hq1
    obtain ⟨p1, rfl⟩ := Phase.retry_last 4 pre h1
    right
    refine ⟨p1, Act.pick n false, (retryActs n p false).take 4, rfl, ?_, Or.inl rfl⟩
    intro x hx
    simp [retryActs] at hx
    rcases hx with rfl | rfl | rfl | rfl <;> rfl
theorem Phase.next_of_retry {n : String} {p : Pose} {k : Nat} {a : Act} {q : Phase}
    (h : (Phase.retry n p k).next a = some q) :
    (k = 0 ∧ a = Act.removeAttached n ∧ q = Phase.retry n p 1) ∨
      (k = 1 ∧ a = Act.removeCollision n ∧ q = Phase.retry n p 2) ∨
      (k = 2 ∧ a = Act.publishCollision n p ∧ q = Phase.retry n p 3) ∨
      (k = 3 ∧ a = Act.generate p ∧ q = Phase.retry n p 4) ∨
      (k = 4 ∧ ∃ r, a = Act.pick n r) := by
  unfold Phase.next at h
  split at h <;> simp_all

theorem Phase.next_of_failedPlace {n : String} {pos : List Point} {a : Act} {q : Phase}
    (h : (Phase.failedPlace n pos).next a = some q) : ∃ r, a = Act.place n pos r := by
  unfold Phase.next at h
  split at h <;> simp_all

/-- What may follow a failed pick: the calls of the retry, in order. -/
theorem Phase.after_retry {n : String} {p : Pose} {q : Phase} (post : List Act)
    (h : (Phase.retry n p 0).after post = some q) :
    ∃ r, post.take 5 = (retryActs n p r).take post.length := by
  have step : ∀ {k : Nat} {a : Act} {rest : List Act} {q0 : Phase},
      (Phase.retry n p k).after (a :: rest) = some q0 →
      ∃ q1, (Phase.retry n p k).next a = some q1 ∧ q1.after rest = some q0 := by
    intro k a rest q0 h0
    simp only [Phase.after_cons] at h0
    cases h1 : (Phase.retry n p k).next a with
    | none => simp [h1] at h0
    | some q1 => exact ⟨q1, rfl, by simpa [h1] using h0⟩
  match post, h with
  | [], _ => exact ⟨false, rfl⟩
  | a1 :: t1, h =>
    obtain ⟨q1, h1, h1'⟩ := step h
    rcases Phase.next_of_retry h1 with ⟨-, rfl, rfl⟩ | ⟨hk, -⟩ | ⟨hk, -⟩ | ⟨hk, -⟩ | ⟨hk, -⟩ <;>
      try omega
    match t1, h1' with
    | [], _ => exact ⟨false, by simp [retryActs]⟩
    | a2 :: t2, h2 =>
      obtain ⟨q2, h2, h2'⟩ := step h2
      rcases Phase.next_of_retry h2 with ⟨hk, -⟩ | ⟨-, rfl, rfl⟩ | ⟨hk, -⟩ | ⟨hk, -⟩ | ⟨hk, -⟩ <;>
        try omega
      match t2, h2' with
      | [], _ => exact ⟨false, by simp [retryActs]⟩
      | a3 :: t3, h3 =>
        obtain ⟨q3, h3, h3'⟩ := step h3
        rcases Phase.next_of_retry h3 with
          ⟨hk, -⟩ | ⟨hk, -⟩ | ⟨-, rfl, rfl⟩ | ⟨hk, -⟩ | ⟨hk, -⟩ <;> try omega
        match t3, h3' with
        | [], _ => exact ⟨false, by simp [retryActs]⟩
        | a4 :: t4, h4 =>
          obtain ⟨q4, h4, h4'⟩ := step h4
          rcases Phase.next_of_retry h4 with
            ⟨hk, -⟩ | ⟨hk, -⟩ | ⟨hk, -⟩ | ⟨-, rfl, rfl⟩ | ⟨hk, -⟩ <;> try omega
          match t4, h4' with
          | [], _ => exact ⟨false, by simp [retryActs]⟩
          | a5 :: t5, h5 =>
            obtain ⟨q5, h5, -⟩ := step h5
            rcases Phase.next_of_retry h5 with
              ⟨hk, -⟩ | ⟨hk, -⟩ | ⟨hk, -⟩ | ⟨hk, -⟩ | ⟨-, r, rfl⟩ <;> try omega
            exact ⟨r, by simp [retryActs]⟩

/-- In an ordered list of calls, a failed pick is followed by the calls of its
retry, as far as the list goes. -/
theorem Phase.retry_after_failed_pick {q : Phase} {pre post : List Act} {n : String} {p : Pose}
    (h : Phase.idle.after (pre ++ Act.generate p :: Act.pick n false :: post) = some q) :
    ∃ r, post.take 5 = (retryActs n p r).take post.length := by
  obtain ⟨q1, q2, -, h2, h3⟩ := Phase.after_split h
  have h3' : q2.after ([] ++ Act.pick n false :: post) = some q := by simpa using h3
  obtain ⟨q3, q4, h4, h5, h6⟩ := Phase.after_split h3'
  simp only [Phase.after_nil, Option.some.injEq] at h4
  subst h4
  have hq4 : q4 = Phase.retry n p 0 := by
    rcases Phase.next_generate h2 with ⟨-, rfl⟩ | ⟨n0, -, rfl⟩
    · simpa [Phase.next] using h5.symm
    · unfold Phase.next at h5
      split at h5 <;> simp_all
  subst hq4
  exact Phase.after_retry post h6

/-- In an ordered list of calls, a failed place is followed by a place of the
same block at the same positions, if by anything. -/
theorem Phase.place_after_failed_place {q : Phase} {pre post : List Act} {n : String}
    {pos : List Point}
    (h : Phase.idle.after (pre ++ Act.place n pos false :: post) = some q) :
    post = [] ∨ ∃ r rest, post = Act.place n pos r :: rest := by
  obtain ⟨q1, q2, -, h2, h3⟩ := Phase.after_split h
  obtain ⟨-, rfl⟩ := Phase.next_place h2
  cases post with
  | nil => exact Or.inl rfl
  | cons a rest =>
    right
    simp only [Bool.false_eq_true, if_false, Phase.after_cons] at h3
    cases h4 : (Phase.failedPlace n pos).next a with
    | none => simp [h4] at h3
    | some q3 =>
      obtain ⟨r, rfl⟩ := Phase.next_of_failedPlace h4
      exact ⟨r, rest, rfl⟩

/-- Claim C10. When `ros::ok()` never answers `true` again once it has answered
`false`, then in every run: a place of a block comes after a pick of that block
that succeeded, with nothing but failed places of that block in between (no
reset, so no new cycle, and no other pick); and the pick or place made before a
pick of a block, if any, is a failed pick of that block or a place that
succeeded. -/
theorem place_only_after_pick (self : SimplePickPlace) (env : Env) (blocks : List MetaBlock)
    (n : Nat) (hmono : ∀ i j, i ≤ j → env.ok i = false → env.ok j = false) :
    (∀ pre name pos r post,
      acts (run self env blocks n ⟨PC.start, World.init⟩).w.trace =
        pre ++ Act.place name pos r :: post →
      ∃ p1 p2, pre = p1 ++ Act.pick name true :: p2 ∧
        ∀ a ∈ p2, a = Act.place name pos false) ∧
    (∀ pre name r post,
      acts (run self env blocks n ⟨PC.start, World.init⟩).w.trace =
        pre ++ Act.pick name r :: post →
      (∀ a ∈ pre, a.isMotion = false) ∨
        ∃ p1 m p2, pre = p1 ++ m :: p2 ∧ (∀ a ∈ p2, a.isMotion = false) ∧
          (m = Act.pick name false ∨ ∃ name0 pos, m = Act.place name0 pos true)) := by
  obtain ⟨q, hq⟩ := run_order self env blocks hmono n
  constructor
  · intro pre name pos r post h
    rw [h] at hq
    exact Phase.place_after_pick hq
  · intro pre name r post h
    rw [h] at hq
    exact Phase.pick_after hq

/-- The case of C10 in interactive mode with the block `W1`, whose pick fails,
is retried and succeeds: the place comes right after the pick that succeeded. -/
theorem place_only_after_pick_witness :
    (∀ i j : Nat, i ≤ j →
      (demoEnv (fun _ => true) (fun i => if i = 0 then 'y' else 'n') [demoGrasp]
        (fun i => decide (i ≠ 0)) (fun _ => true)).ok i = false →
      (demoEnv (fun _ => true) (fun i => if i = 0 then 'y' else 'n') [demoGrasp]
        (fun i => decide (i ≠ 0)) (fun _ => true)).ok j = false) ∧
    ∃ p1 p2, resetActs demoBlock ++ pickActs demoBlock false ++ resetActs demoBlock ++
        pickActs demoBlock true = p1 ++ Act.pick "Block1" true :: p2 ∧
      ∀ a ∈ p2, a = Act.place "Block1" (List.replicate 4 demoBlock.goal_pose.position) false :=
  ⟨fun _ _ _ h => by simp [demoEnv] at h,
    (place_only_after_pick (interactive demoData)
      (demoEnv (fun _ => true) (fun i => if i = 0 then 'y' else 'n') [demoGrasp]
        (fun i => decide (i ≠ 0)) (fun _ => true))
      [demoBlock] 5 (fun _ _ _ h => by simp [demoEnv] at h)).1
      (resetActs demoBlock ++ pickActs demoBlock false ++ resetActs demoBlock ++
        pickActs demoBlock true)
      "Block1" (List.replicate 4 demoBlock.goal_pose.position) true []
      (by
        simp only [run, step, rosOk, pick_eq, promptUser_eq, resetAll_eq, resetBlock_eq, place_eq,
          demoEnv, World.init, World.emit, interactive, SimplePickPlace.new, resetAll]
        simp [Event.act, resetActs, pickActs, demoBlock, placeLocations_position])⟩

/-- A pick that fails in interactive mode and is retried: one step. -/
theorem step_pick_retry (self : SimplePickPlace) (env : Env) (blocks : List MetaBlock)
    (i : Nat) (b : MetaBlock) (w : World) (hb : blocks[i]? = some b)
    (hauto : self.auto_reset_ = false) (hok : ∀ i, env.ok i = true)
    (hpick : ∀ name grasps, env.movePick w.pickCalls name grasps = false)
    (hcin : env.cin w.cinReads ≠ 'n') :
    (step self env blocks ⟨PC.pickLoop i, w⟩).pc = PC.pickLoop i ∧
      acts (step self env blocks ⟨PC.pickLoop i, w⟩).w.trace =
        acts w.trace ++ (pickActs b false ++ resetActs b) ∧
      (step self env blocks ⟨PC.pickLoop i, w⟩).w.pickCalls = w.pickCalls + 1 ∧
      (step self env blocks ⟨PC.pickLoop i, w⟩).w.cinReads = w.cinReads + 1 := by
  simp only [step_pickLoop self env blocks i b w hb, rosOk, hok, pick_eq, World.emit, hpick,
    promptUser_eq, hauto, resetBlock_eq]
  simp [hcin, Event.act, pickActs, resetActs]

/-- A pick that succeeds: one step. -/
theorem step_pick_ok (self : SimplePickPlace) (env : Env) (blocks : List MetaBlock)
    (i : Nat) (b : MetaBlock) (w : World) (hb : blocks[i]? = some b)
    (hok : ∀ i, env.ok i = true)
    (hpick : ∀ name grasps, env.movePick w.pickCalls name grasps = true) :
    (step self env blocks ⟨PC.pickLoop i, w⟩).pc = PC.placeLoop i ∧
      acts (step self env blocks ⟨PC.pickLoop i, w⟩).w.trace = acts w.trace ++ pickActs b true ∧
      (step self env blocks ⟨PC.pickLoop i, w⟩).w.pickCalls = w.pickCalls + 1 ∧
      (step self env blocks ⟨PC.pickLoop i, w⟩).w.cinReads = w.cinReads := by
  simp only [step_pickLoop self env blocks i b w hb, rosOk, hok, pick_eq, World.emit, hpick]
  simp [Event.act, pickActs]

/-- A place that succeeds: one step. -/
theorem step_place_ok (self : SimplePickPlace) (env : Env) (blocks : List MetaBlock)
    (i : Nat) (b : MetaBlock) (w : World) (hb : blocks[i]? = some b)
    (hok : ∀ i, env.ok i = true)
    (hplace : ∀ i name locs, env.movePlace i name locs = true) :
    (step self env blocks ⟨PC.placeLoop i, w⟩).pc = PC.pickLoop (i + 1) ∧
      acts (step self env blocks ⟨PC.placeLoop i, w⟩).w.trace = acts w.trace ++ placeActs b true ∧
      (step self env blocks ⟨PC.placeLoop i, w⟩).w.pickCalls = w.pickCalls ∧
      (step self env blocks ⟨PC.placeLoop i, w⟩).w.cinReads = w.cinReads := by
  simp only [step_placeLoop self env blocks i b w hb, rosOk, hok, place_eq, World.emit, hplace]
  simp [Event.act, placeActs, placeLocations_position]

/-- Interactive mode, one block, a pick that fails once and then succeeds, a
place that succeeds, the retry question answered by something else than `n`
and the repeat question by `n`: after seven steps `startRoutine` has returned. -/
theorem retry_scenario (data : BaxterData) (env : Env) (b : MetaBlock)
    (hen : env.enableBaxter = true) (hok : ∀ i, env.ok i = true)
    (hp0 : ∀ name grasps, env.movePick 0 name grasps = false)
    (hp1 : ∀ name grasps, env.movePick 1 name grasps = true)
    (hplace : ∀ i name locs, env.movePlace i name locs = true)
    (hc0 : env.cin 0 ≠ 'n') (hc1 : env.cin 1 = 'n') :
    (run (interactive data) env [b] 7 ⟨PC.start, World.init⟩).pc = PC.returned ∧
      acts (run (interactive data) env [b] 7 ⟨PC.start, World.init⟩).w.trace =
        resetActs b ++ pickActs b false ++ resetActs b ++ pickActs b true ++ placeActs b true := by
  have hb : [b][0]? = some b := rfl
  -- the constructor and the reset of the block
  obtain ⟨w2, h2, a2, p2, c2⟩ : ∃ w2 : World,
      run (interactive data) env [b] 2 ⟨PC.start, World.init⟩ = ⟨PC.pickLoop 0, w2⟩ ∧
      acts w2.trace = resetActs b ∧ w2.pickCalls = 0 ∧ w2.cinReads = 0 :=
    ⟨_, by simp only [run, step, hen, rosOk, hok]; rfl,
      by simp [World.emit, World.init, resetAll, acts_resetBlock, Event.act, rosOk],
      by simp [World.emit, World.init, resetAll, resetBlock_eq, rosOk],
      by simp [World.emit, World.init, resetAll, resetBlock_eq, rosOk]⟩
  -- the pick that fails, and the retry
  obtain ⟨k1, k2, k3, k4⟩ := step_pick_retry (interactive data) env [b] 0 b w2 hb rfl hok
    (by rw [p2]; exact hp0) (by rw [c2]; exact hc0)
  -- the pick that succeeds
  obtain ⟨l1, l2, l3, l4⟩ := step_pick_ok (interactive data) env [b] 0 b
    (step (interactive data) env [b] ⟨PC.pickLoop 0, w2⟩).w hb hok (by rw [k3, p2]; exact hp1)
  rw [← State.eq_mk _ _ k1] at l1 l2 l3 l4
  -- the place
  obtain ⟨m1, m2, m3, m4⟩ := step_place_ok (interactive data) env [b] 0 b
    (step (interactive data) env [b] (step (interactive data) env [b] ⟨PC.pickLoop 0, w2⟩)).w
    hb hok hplace
  rw [← State.eq_mk _ _ l1] at m1 m2 m3 m4
  have h7 : run (interactive data) env [b] 7 ⟨PC.start, World.init⟩ =
      step (interactive data) env [b] (step (interactive data) env [b]
        (step (interactive data) env [b] (step (interactive data) env [b]
          (step (interactive data) env [b] ⟨PC.pickLoop 0, w2⟩)))) := by
    rw [show (7 : Nat) = 2 + 5 from rfl, run_add, h2]
    rfl
  rw [h7]
  generalize step (interactive data) env [b] (step (interactive data) env [b]
    (step (interactive data) env [b] ⟨PC.pickLoop 0, w2⟩)) = s5 at m1 m2 m3 m4
  obtain ⟨pc5, w5⟩ := s5
  simp only at m1 m2 m3 m4
  subst m1
  have hnone : [b][0 + 1]? = none := rfl
  simp only [step, hnone, promptUser_eq, hok, interactive, SimplePickPlace.new]
  rw [m4, l4, k4, c2]
  simp only [Nat.zero_add, hc1]
  simp [Event.act, m2, l2, k2, a2]

/-- The call `publishBlock` is no manipulation call. -/
theorem acts_emit_publishBlock (w : World) (pose : Pose) (size : ℚ) (goal : Bool) :
    acts (w.emit (Event.publishBlock pose size goal)).trace = acts w.trace := by
  simp [World.emit, Event.act]

/-- The call `exit` is no manipulation call. -/
theorem acts_emit_exit (w : World) (code : Int) :
    acts (w.emit (Event.exit code)).trace = acts w.trace := by
  simp [World.emit, Event.act]

/-- A pick that fails and whose retry is granted: the block is reset once and
the pick loop is entered again. -/
theorem step_pick_granted (self : SimplePickPlace) (env : Env) (blocks : List MetaBlock)
    (i : Nat) (b : MetaBlock) (w : World) (hb : blocks[i]? = some b)
    (hok : (rosOk env w).1 = true) (hpick : (pickAttempt self env b w).1 = false)
    (hretry : (promptUser self env (pickAttempt self env b w).2).1 = true) :
    (step self env blocks ⟨PC.pickLoop i, w⟩).pc = PC.pickLoop i ∧
      acts (step self env blocks ⟨PC.pickLoop i, w⟩).w.trace =
        acts w.trace ++ (pickActs b false ++ resetActs b) := by
  unfold pickAttempt at hpick hretry
  rw [step_pickLoop self env blocks i b w hb]
  simp only [hok, hpick, hretry, Bool.true_eq_false, Bool.false_eq_true, if_false, if_true]
  refine ⟨trivial, ?_⟩
  rw [acts_resetBlock, acts_promptUser, acts_pick, hpick, acts_emit_publishBlock, acts_rosOk]
  simp [pickActs]

/-- The pick loop entered while `ros::ok()` holds: its first manipulation calls
are the generation of grasps at the start pose and the pick of the block. -/
theorem step_pick_calls (self : SimplePickPlace) (env : Env) (blocks : List MetaBlock)
    (i : Nat) (b : MetaBlock) (w : World) (hb : blocks[i]? = some b)
    (hok : (rosOk env w).1 = true) :
    ∃ rest, acts (step self env blocks ⟨PC.pickLoop i, w⟩).w.trace =
      acts w.trace ++ (pickActs b (pickAttempt self env b w).1 ++ rest) := by
  unfold pickAttempt
  rw [step_pickLoop self env blocks i b w hb]
  simp only [hok, Bool.true_eq_false, if_false]
  have hp := acts_pick self env b.start_pose b.name
    ((rosOk env w).2.emit (Event.publishBlock b.start_pose self.data.BLOCK_SIZE false))
  rw [acts_emit_publishBlock, acts_rosOk] at hp
  split_ifs
  · exact ⟨[], by simp [hp, pickActs]⟩
  · exact ⟨resetActs b, by simp [acts_resetBlock, acts_promptUser, hp, pickActs]⟩
  · exact ⟨[], by rw [acts_emit_exit, acts_promptUser, hp]; simp [pickActs]⟩

/-- A place that fails and whose retry is granted: the place loop is entered
again, with no other manipulation call. -/
theorem step_place_granted (self : SimplePickPlace) (env : Env) (blocks : List MetaBlock)
    (i : Nat) (b : MetaBlock) (w : World) (hb : blocks[i]? = some b)
    (hok : (rosOk env w).1 = true) (hplace : (placeAttempt self env b w).1 = false)
    (hretry : (promptUser self env (placeAttempt self env b w).2).1 = true) :
    (step self env blocks ⟨PC.placeLoop i, w⟩).pc = PC.placeLoop i ∧
      acts (step self env blocks ⟨PC.placeLoop i, w⟩).w.trace =
        acts w.trace ++ placeActs b false := by
  unfold placeAttempt at hplace hretry
  rw [step_placeLoop self env blocks i b w hb]
  simp only [hok, hplace, hretry, Bool.true_eq_false, Bool.false_eq_true, if_false, if_true]
  refine ⟨trivial, ?_⟩
  rw [acts_promptUser, acts_place, hplace, acts_emit_publishBlock, acts_rosOk]
  simp [placeActs]

/-- The place loop entered while `ros::ok()` holds: its one manipulation call
is the place of the block at its goal. -/
theorem step_place_calls (self : SimplePickPlace) (env : Env) (blocks : List MetaBlock)
    (i : Nat) (b : MetaBlock) (w : World) (hb : blocks[i]? = some b)
    (hok : (rosOk env w).1 = true) :
    acts (step self env blocks ⟨PC.placeLoop i, w⟩).w.trace =
      acts w.trace ++ placeActs b (placeAttempt self env b w).1 := by
  unfold placeAttempt
  rw [step_placeLoop self env blocks i b w hb]
  simp only [hok, Bool.true_eq_false, if_false]
  have hp := acts_place self env b.goal_pose b.name
    ((rosOk env w).2.emit (Event.publishBlock b.goal_pose self.data.BLOCK_SIZE true))
  rw [acts_emit_publishBlock, acts_rosOk] at hp
  split_ifs
  · simp [hp, placeActs]
  · simp [acts_promptUser, hp, placeActs]
  · rw [acts_emit_exit, acts_promptUser, hp]; simp [placeActs]

/-- A pick that succeeds leaves the count of the places alone. -/
theorem step_pick_ok_placeCalls (self : SimplePickPlace) (env : Env) (blocks : List MetaBlock)
    (i : Nat) (b : MetaBlock) (w : World) (hb : blocks[i]? = some b)
    (hok : ∀ i, env.ok i = true)
    (hpick : ∀ name grasps, env.movePick w.pickCalls name grasps = true) :
    (step self env blocks ⟨PC.pickLoop i, w⟩).w.placeCalls = w.placeCalls := by
  simp only [step_pickLoop self env blocks i b w hb, rosOk, hok, pick_eq, World.emit, hpick]
  simp

/-- A place that fails in interactive mode and is retried: one step. -/
theorem step_place_retry (self : SimplePickPlace) (env : Env) (blocks : List MetaBlock)
    (i : Nat) (b : MetaBlock) (w : World) (hb : blocks[i]? = some b)
    (hauto : self.auto_reset_ = false) (hok : ∀ i, env.ok i = true)
    (hplace : ∀ name locs, env.movePlace w.placeCalls name locs = false)
    (hcin : env.cin w.cinReads ≠ 'n') :
    (step self env blocks ⟨PC.placeLoop i, w⟩).pc = PC.placeLoop i ∧
      acts (step self env blocks ⟨PC.placeLoop i, w⟩).w.trace = acts w.trace ++ placeActs b false ∧
      (step self env blocks ⟨PC.placeLoop i, w⟩).w.placeCalls = w.placeCalls + 1 ∧
      (step self env blocks ⟨PC.placeLoop i, w⟩).w.cinReads = w.cinReads + 1 := by
  simp only [step_placeLoop self env blocks i b w hb, rosOk, hok, place_eq, World.emit, hplace,
    promptUser_eq, hauto]
  simp [hcin, Event.act, placeActs, placeLocations_position]

/-- A place that succeeds, by the count of the places: one step. -/
theorem step_place_ok_at (self : SimplePickPlace) (env : Env) (blocks : List MetaBlock)
    (i : Nat) (b : MetaBlock) (w : World) (hb : blocks[i]? = some b)
    (hok : ∀ i, env.ok i = true)
    (hplace : ∀ name locs, env.movePlace w.placeCalls name locs = true) :
    (step self env blocks ⟨PC.placeLoop i, w⟩).pc = PC.pickLoop (i + 1) ∧
      acts (step self env blocks ⟨PC.placeLoop i, w⟩).w.trace = acts w.trace ++ placeActs b true ∧
      (step self env blocks ⟨PC.placeLoop i, w⟩).w.cinReads = w.cinReads := by
  simp only [step_placeLoop self env blocks i b w hb, rosOk, hok, place_eq, World.emit, hplace]
  simp [Event.act, placeActs, placeLocations_position]

/-- Interactive mode, one block, a pick that succeeds, a place that fails once
and then succeeds, the retry question answered by something else than `n` and
the repeat question by `n`: after seven steps `startRoutine` has returned. -/
theorem place_retry_scenario (data : BaxterData) (env : Env) (b : MetaBlock)
    (hen : env.enableBaxter = true) (hok : ∀ i, env.ok i = true)
    (hpick : ∀ i name grasps, env.movePick i name grasps = true)
    (hq0 : ∀ name locs, env.movePlace 0 name locs = false)
    (hq1 : ∀ name locs, env.movePlace 1 name locs = true)
    (hc0 : env.cin 0 ≠ 'n') (hc1 : env.cin 1 = 'n') :
    (run (interactive data) env [b] 7 ⟨PC.start, World.init⟩).pc = PC.returned ∧
      acts (run (interactive data) env [b] 7 ⟨PC.start, World.init⟩).w.trace =
        resetActs b ++ pickActs b true ++ placeActs b false ++ placeActs b true := by
  have hb : [b][0]? = some b := rfl
  -- the constructor and the reset of the block
  obtain ⟨w2, h2, a2, p2, c2⟩ : ∃ w2 : World,
      run (interactive data) env [b] 2 ⟨PC.start, World.init⟩ = ⟨PC.pickLoop 0, w2⟩ ∧
      acts w2.trace = resetActs b ∧ w2.placeCalls = 0 ∧ w2.cinReads = 0 :=
    ⟨_, by simp only [run, step, hen, rosOk, hok]; rfl,
      by simp [World.emit, World.init, resetAll, acts_resetBlock, Event.act, rosOk],
      by simp [World.emit, World.init, resetAll, resetBlock_eq, rosOk],
      by simp [World.emit, World.init, resetAll, resetBlock_eq, rosOk]⟩
  -- the pick
  obtain ⟨k1, k2, -, k4⟩ := step_pick_ok (interactive data) env [b] 0 b w2 hb hok
    (fun name grasps => hpick _ name grasps)
  have k3 := step_pick_ok_placeCalls (interactive data) env [b] 0 b w2 hb hok
    (fun name grasps => hpick _ name grasps)
  -- the place that fails, and the retry
  obtain ⟨l1, l2, l3, l4⟩ := step_place_retry (interactive data) env [b] 0 b
    (step (interactive data) env [b] ⟨PC.pickLoop 0, w2⟩).w hb rfl hok
    (by rw [k3, p2]; exact hq0) (by rw [k4, c2]; exact hc0)
  rw [← State.eq_mk _ _ k1] at l1 l2 l3 l4
  -- the place that succeeds
  obtain ⟨m1, m2, m4⟩ := step_place_ok_at (interactive data) env [b] 0 b
    (step (interactive data) env [b] (step (interactive data) env [b] ⟨PC.pickLoop 0, w2⟩)).w
    hb hok (by rw [l3, k3, p2]; exact hq1)
  rw [← State.eq_mk _ _ l1] at m1 m2 m4
  have h7 : run (interactive data) env [b] 7 ⟨PC.start, World.init⟩ =
      step (interactive data) env [b] (step (interactive data) env [b]
        (step (interactive data) env [b] (step (interactive data) env [b]
          (step (interactive data) env [b] ⟨PC.pickLoop 0, w2⟩)))) := by
    rw [show (7 : Nat) = 2 + 5 from rfl, run_add, h2]
    rfl
  rw [h7]
  generalize step (interactive data) env [b] (step (interactive data) env [b]
    (step (interactive data) env [b] ⟨PC.pickLoop 0, w2⟩)) = s5 at m1 m2 m4
  obtain ⟨pc5, w5⟩ := s5
  simp only at m1 m2 m4
  subst m1
  have hnone : [b][0 + 1]? = none := rfl
  simp only [step, hnone, promptUser_eq, hok, interactive, SimplePickPlace.new]
  rw [m4, l4, k4, c2]
  simp only [Nat.zero_add, hc1]
  simp [Event.act, m2, l2, k2, a2]

theorem promptUser_no (self : SimplePickPlace) (env : Env) (hauto : self.auto_reset_ = false)
    (hcin : ∀ i, env.cin i = 'n') (w : World) : (promptUser self env w).1 = false := by
  rw [promptUser_eq]
  split_ifs <;> simp_all

/-- When every question is answered `n` in interactive mode, every step brings
the end nearer. -/
theorem step_stepsLeft (self : SimplePickPlace) (env : Env) (blocks : List MetaBlock)
    (hauto : self.auto_reset_ = false) (hcin : ∀ i, env.cin i = 'n') (s : State) (h : stepsLeft blocks.length s.pc ≠ 0) :
    stepsLeft blocks.length (step self env blocks s).pc <
      stepsLeft blocks.length s.pc := by
  obtain ⟨pc, w⟩ := s
  have hno := promptUser_no self env hauto hcin
  cases pc with
  | start => simp only [step]; split <;> simp [stepsLeft]
  | outerLoop => simp only [step]; split <;> simp [stepsLeft]
  | pickLoop i =>
    cases hb : blocks[i]? with
    | none => simp [step, hb, stepsLeft]
    | some b =>
      rw [step_pickLoop _ env blocks i b w hb]
      simp only [hno]
      split_ifs <;> simp_all [stepsLeft]
  | placeLoop i =>
    cases hb : blocks[i]? with
    | none => simp [step, hb, stepsLeft]
    | some b =>
      have hi : i < blocks.length := by
        by_contra hge
        have : blocks[i]? = none := List.getElem?_eq_none (by omega)
        simp [this] at hb
      rw [step_placeLoop _ env blocks i b w hb]
      simp only [hno]
      split_ifs
      · simp only [stepsLeft]; omega
      · simp only [stepsLeft]; omega
      · simp_all
      · simp [stepsLeft]
  | askRepeat => simp [step, hno, stepsLeft]
  | returned => simp [step, stepsLeft]
  | finished => simp [stepsLeft] at h
  | exited => simp [stepsLeft] at h

/-- When every question is answered `n` in interactive mode, the run ends. -/
theorem run_ends (self : SimplePickPlace) (env : Env) (blocks : List MetaBlock)
    (hauto : self.auto_reset_ = false) (hcin : ∀ i, env.cin i = 'n') :
    ∀ (N : Nat) (s : State), stepsLeft blocks.length s.pc ≤ N →
      stepsLeft blocks.length (run self env blocks N s).pc = 0 := by
  intro N
  induction N with
  | zero => intro s hs; simpa [run] using hs
  | succ N ih =>
    intro s hs
    by_cases h0 : stepsLeft blocks.length s.pc = 0
    · obtain ⟨pc, w⟩ := s
      rcases stepsLeft_eq_zero _ _ h0 with h | h <;> simp only at h <;> subst h
      · rw [run_finished]; rfl
      · rw [run_exited]; rfl
    · have := step_stepsLeft self env blocks hauto hcin s h0
      exact ih _ (by omega)

theorem count_rosOk (env : Env) (w : World) :
    failures (rosOk env w).2.trace = failures w.trace ∧
      completed (rosOk env w).2.trace = completed w.trace := by
  simp [failures, completed, acts_rosOk]

theorem count_emit (w : World) (e : Event) (he : e.act = none) :
    failures (w.emit e).trace = failures w.trace ∧
      completed (w.emit e).trace = completed w.trace := by
  simp [failures, completed, World.emit, he]

theorem count_pick (self : SimplePickPlace) (env : Env) (pose : Pose) (name : String) (w : World) :
    failures (pick self env pose name w).2.trace =
        failures w.trace + (if (pick self env pose name w).1 = true then 0 else 1) ∧
      completed (pick self env pose name w).2.trace = completed w.trace := by
  simp only [failures, completed, acts_pick]
  cases (pick self env pose name w).1 <;> simp [Act.isFailure, Act.isCompleted]

theorem count_place (self : SimplePickPlace) (env : Env) (pose : Pose) (name : String)
    (w : World) :
    failures (place self env pose name w).2.trace =
        failures w.trace + (if (place self env pose name w).1 = true then 0 else 1) ∧
      completed (place self env pose name w).2.trace =
        completed w.trace + (if (place self env pose name w).1 = true then 1 else 0) := by
  simp only [failures, completed, acts_place]
  cases (place self env pose name w).1 <;> simp [Act.isFailure, Act.isCompleted]

theorem count_promptUser (self : SimplePickPlace) (env : Env) (w : World) :
    failures (promptUser self env w).2.trace = failures w.trace ∧
      completed (promptUser self env w).2.trace = completed w.trace := by
  simp [failures, completed, acts_promptUser]

theorem count_resetAll (self : SimplePickPlace) (blocks : List MetaBlock) (w : World) :
    failures (resetAll self blocks w).trace = failures w.trace ∧
      completed (resetAll self blocks w).trace = completed w.trace := by
  have h1 : (blocks.flatMap resetActs).filter Act.isFailure = [] := by
    rw [List.filter_eq_nil_iff]
    intro a ha
    obtain ⟨b, -, hb⟩ := List.mem_flatMap.mp ha
    simp only [resetActs, List.mem_cons, List.mem_singleton, List.not_mem_nil, or_false] at hb
    rcases hb with rfl | rfl | rfl <;> simp [Act.isFailure]
  have h2 : (blocks.flatMap resetActs).filter Act.isCompleted = [] := by
    rw [List.filter_eq_nil_iff]
    intro a ha
    obtain ⟨b, -, hb⟩ := List.mem_flatMap.mp ha
    simp only [resetActs, List.mem_cons, List.mem_singleton, List.not_mem_nil, or_false] at hb
    rcases hb with rfl | rfl | rfl <;> simp [Act.isCompleted]
  simp [failures, completed, acts_resetAll', h1, h2]

/-- When every question is answered `n` in interactive mode, every step keeps
the invariant behind the amended C8. -/
theorem step_noRetry (self : SimplePickPlace) (env : Env) (blocks : List MetaBlock)
    (hauto : self.auto_reset_ = false) (hcin : ∀ i, env.cin i = 'n') (s : State) (h : NoRetryInv blocks s) :
    NoRetryInv blocks (step self env blocks s) := by
  obtain ⟨pc, w⟩ := s
  obtain ⟨hf0, hf1, hd⟩ := h
  simp only at hf0 hf1 hd
  have hno := promptUser_no self env hauto hcin
  have hr := count_rosOk env w
  cases pc with
  | start =>
    have hf := hf0 (by simp)
    simp only [doneBound] at hd
    have e1 := count_emit w (Event.setPlanningTime 30) rfl
    have e2 := count_emit (w.emit (Event.setPlanningTime 30)) (Event.sleep 1) rfl
    have e3 := count_emit ((w.emit (Event.setPlanningTime 30)).emit (Event.sleep 1))
      (Event.enableBaxter env.enableBaxter) rfl
    have e4 := count_emit (((w.emit (Event.setPlanningTime 30)).emit (Event.sleep 1)).emit
      (Event.enableBaxter env.enableBaxter)) Event.rosShutdown rfl
    have e5 := count_emit (((w.emit (Event.setPlanningTime 30)).emit (Event.sleep 1)).emit
      (Event.enableBaxter env.enableBaxter)) (Event.setMuted false) rfl
    have e6 := count_emit ((((w.emit (Event.setPlanningTime 30)).emit (Event.sleep 1)).emit
      (Event.enableBaxter env.enableBaxter)).emit (Event.setMuted false))
      Event.createEnvironment rfl
    simp only [step]
    split
    · refine ⟨fun _ => ?_, ?_, ?_⟩ <;>
        simp only [e4.1, e4.2, e3.1, e3.2, e2.1, e2.2, e1.1, e1.2, hf, doneBound] <;> omega
    · refine ⟨fun _ => ?_, ?_, ?_⟩ <;>
        simp only [e6.1, e6.2, e5.1, e5.2, e3.1, e3.2, e2.1, e2.2, e1.1, e1.2, hf, doneBound] <;>
        omega
  | outerLoop =>
    have hf := hf0 (by simp)
    simp only [doneBound] at hd
    simp only [step]
    split
    · refine ⟨fun _ => ?_, ?_, ?_⟩ <;> simp only [hr.1, hr.2, hf, doneBound] <;> omega
    · have hc := count_resetAll self blocks (rosOk env w).2
      refine ⟨fun _ => ?_, ?_, ?_⟩ <;> simp only [hc.1, hc.2, hr.1, hr.2, hf, doneBound] <;>
        omega
  | pickLoop i =>
    have hf := hf0 (by simp)
    simp only [doneBound] at hd
    cases hb : blocks[i]? with
    | none =>
      simp only [step, hb]
      refine ⟨fun _ => hf, hf1, ?_⟩
      simp only [doneBound]; omega
    | some b =>
      rw [step_pickLoop _ env blocks i b w hb]
      simp only [hno]
      have he := count_emit (rosOk env w).2
        (Event.publishBlock b.start_pose self.data.BLOCK_SIZE false) rfl
      have hp := count_pick self env b.start_pose b.name ((rosOk env w).2.emit
        (Event.publishBlock b.start_pose self.data.BLOCK_SIZE false))
      rw [he.1, he.2, hr.1, hr.2] at hp
      generalize pick self env b.start_pose b.name ((rosOk env w).2.emit
        (Event.publishBlock b.start_pose self.data.BLOCK_SIZE false)) = p at hp ⊢
      have hq := count_promptUser self env p.2
      have hx := count_emit (promptUser self env p.2).2 (Event.exit 0) rfl
      obtain ⟨pa, pw⟩ := p
      simp only at hp hq hx ⊢
      split_ifs with h1 h2
      · refine ⟨fun _ => ?_, ?_, ?_⟩ <;> simp only [hr.1, hr.2, hf, doneBound] <;> omega
      · subst h2
        simp only [if_true] at hp
        refine ⟨fun _ => ?_, ?_, ?_⟩ <;> simp only [hp.1, hp.2, hf, doneBound] <;> omega
      · simp at *
      · have hpa : pa = false := by simpa using h2
        subst hpa
        simp only [Bool.false_eq_true, if_false] at hp
        refine ⟨fun hne => absurd rfl hne, ?_, ?_⟩ <;>
          simp only [hx.1, hx.2, hq.1, hq.2, hp.1, hp.2, hf, doneBound] <;> omega
  | placeLoop i =>
    have hf := hf0 (by simp)
    simp only [doneBound] at hd
    cases hb : blocks[i]? with
    | none =>
      simp only [step, hb]
      refine ⟨fun _ => hf, hf1, ?_⟩
      simp only [doneBound]; omega
    | some b =>
      have hi : i < blocks.length := by
        by_contra hge
        have : blocks[i]? = none := List.getElem?_eq_none (by omega)
        simp [this] at hb
      rw [step_placeLoop _ env blocks i b w hb]
      simp only [hno]
      have he := count_emit (rosOk env w).2
        (Event.publishBlock b.goal_pose self.data.BLOCK_SIZE true) rfl
      have hp := count_place self env b.goal_pose b.name ((rosOk env w).2.emit
        (Event.publishBlock b.goal_pose self.data.BLOCK_SIZE true))
      rw [he.1, he.2, hr.1, hr.2] at hp
      generalize place self env b.goal_pose b.name ((rosOk env w).2.emit
        (Event.publishBlock b.goal_pose self.data.BLOCK_SIZE true)) = p at hp ⊢
      have hq := count_promptUser self env p.2
      have hx := count_emit (promptUser self env p.2).2 (Event.exit 0) rfl
      obtain ⟨pa, pw⟩ := p
      simp only at hp hq hx ⊢
      split_ifs with h1 h2
      · refine ⟨fun _ => ?_, ?_, ?_⟩ <;> simp only [hr.1, hr.2, hf, doneBound] <;> omega
      · subst h2
        simp only [if_true] at hp
        refine ⟨fun _ => ?_, ?_, ?_⟩ <;> simp only [hp.1, hp.2, hf, doneBound] <;> omega
      · simp at *
      · have hpa : pa = false := by simpa using h2
        subst hpa
        simp only [Bool.false_eq_true, if_false] at hp
        refine ⟨fun hne => absurd rfl hne, ?_, ?_⟩ <;>
          simp only [hx.1, hx.2, hq.1, hq.2, hp.1, hp.2, hf, doneBound] <;> omega
  | askRepeat =>
    have hf := hf0 (by simp)
    simp only [doneBound] at hd
    have hq := count_promptUser self env w
    simp only [step, hno]
    refine ⟨fun _ => ?_, ?_, ?_⟩ <;>
      simp only [Bool.not_false, if_true, hq.1, hq.2, hf, doneBound] <;> omega
  | returned =>
    have hf := hf0 (by simp)
    simp only [doneBound] at hd
    have h1 := count_emit w Event.disableBaxter rfl
    have h2 := count_emit (w.emit Event.disableBaxter) Event.rosShutdown rfl
    simp only [step]
    refine ⟨fun _ => ?_, ?_, ?_⟩ <;> simp only [h2.1, h2.2, h1.1, h1.2, hf, doneBound] <;> omega
  | finished => simp only [step]; exact ⟨hf0, hf1, hd⟩
  | exited => simp only [step]; exact ⟨hf0, hf1, hd⟩
theorem doneBound_le (n : Nat) (pc : PC) : doneBound n pc ≤ n := by
  cases pc <;> simp [doneBound]

/-- Claim C8 as stated fails. Interactive mode, every question answered `n`,
the three blocks of `startRoutine`, every pick and place succeeding: the run
ends with `main` returning after all three blocks have been brought to their
goal, not zero. -/
theorem all_no_completes_all :
    (∀ i, (demoEnv (fun _ => true) (fun _ => 'n') [demoGrasp] (fun _ => true)
        (fun _ => true)).cin i = 'n') ∧
      (run (interactive demoData)
        (demoEnv (fun _ => true) (fun _ => 'n') [demoGrasp] (fun _ => true) (fun _ => true))
        (startBlocks demoData
          (demoEnv (fun _ => true) (fun _ => 'n') [demoGrasp] (fun _ => true) (fun _ => true)))
        11 ⟨PC.start, World.init⟩).pc = PC.finished ∧
      completed (run (interactive demoData)
        (demoEnv (fun _ => true) (fun _ => 'n') [demoGrasp] (fun _ => true) (fun _ => true))
        (startBlocks demoData
          (demoEnv (fun _ => true) (fun _ => 'n') [demoGrasp] (fun _ => true) (fun _ => true)))
        11 ⟨PC.start, World.init⟩).w.trace = 3 := by
  have h := run_all_succeed (interactive demoData)
    (demoEnv (fun _ => true) (fun _ => 'n') [demoGrasp] (fun _ => true) (fun _ => true))
    (startBlocks demoData
      (demoEnv (fun _ => true) (fun _ => 'n') [demoGrasp] (fun _ => true) (fun _ => true)))
    0 rfl rfl (fun _ => rfl) (fun _ _ _ => rfl) (fun _ _ _ => rfl)
    (by intro j hj; omega) rfl
  have hlen : (startBlocks demoData
      (demoEnv (fun _ => true) (fun _ => 'n') [demoGrasp] (fun _ => true)
        (fun _ => true))).length = 3 := by simp [startBlocks]
  rw [hlen] at h
  obtain ⟨h1, h2⟩ := h
  have h11 : run (interactive demoData)
      (demoEnv (fun _ => true) (fun _ => 'n') [demoGrasp] (fun _ => true) (fun _ => true))
      (startBlocks demoData
        (demoEnv (fun _ => true) (fun _ => 'n') [demoGrasp] (fun _ => true) (fun _ => true)))
      11 ⟨PC.start, World.init⟩ =
      ⟨PC.finished, (((run (interactive demoData)
        (demoEnv (fun _ => true) (fun _ => 'n') [demoGrasp] (fun _ => true) (fun _ => true))
        (startBlocks demoData
          (demoEnv (fun _ => true) (fun _ => 'n') [demoGrasp] (fun _ => true) (fun _ => true)))
        10 ⟨PC.start, World.init⟩).w.emit Event.disableBaxter).emit Event.rosShutdown)⟩ := by
    rw [show (11 : Nat) = 10 + 1 from rfl, run_add, State.eq_mk _ _ h1]
    simp [run, step]
  rw [h11]
  refine ⟨fun _ => rfl, rfl, ?_⟩
  simp only [completed, World.emit, acts_append, h2]
  simp [cycleActs, startBlocks, createStartBlock, resetActs, pickActs, placeActs,
    Act.isCompleted, Event.act, List.filter, List.replicate]

/-- Claim C8, amended. In interactive mode, when every question is answered `n`,
then whatever `ros::ok()`, the picks and the places answer, the run ends (in
`main` returning or in `exit(0)`) within `2 * n + 6` steps for `n` blocks, after
at most one failed pick or place in all, and with at most `n` blocks brought to
their goal. -/
theorem all_no_run_ends (self : SimplePickPlace) (env : Env) (blocks : List MetaBlock) (m : Nat)
    (hauto : self.auto_reset_ = false) (hcin : ∀ i, env.cin i = 'n') :
    ((run self env blocks (2 * blocks.length + 6 + m) ⟨PC.start, World.init⟩).pc =
        PC.finished ∨
      (run self env blocks (2 * blocks.length + 6 + m) ⟨PC.start, World.init⟩).pc =
        PC.exited) ∧
    failures (run self env blocks (2 * blocks.length + 6 + m)
      ⟨PC.start, World.init⟩).w.trace ≤ 1 ∧
    completed (run self env blocks (2 * blocks.length + 6 + m)
      ⟨PC.start, World.init⟩).w.trace ≤ blocks.length := by
  have hend := run_ends self env blocks hauto hcin (2 * blocks.length + 6 + m)
    ⟨PC.start, World.init⟩ (by simp [stepsLeft])
  have hinv := run_invariant self env blocks (NoRetryInv blocks)
    (step_noRetry self env blocks hauto hcin) (2 * blocks.length + 6 + m) ⟨PC.start, World.init⟩
    ⟨fun _ => rfl, by simp [failures, World.init], by simp [completed, World.init]⟩
  exact ⟨stepsLeft_eq_zero _ _ hend, hinv.2.1, le_trans hinv.2.2 (doneBound_le _ _)⟩

/-- The amended C8 on the three blocks when the first pick fails: the process
ends after this one failure. -/
theorem all_no_run_ends_witness :
    (interactive demoData).auto_reset_ = false ∧
    (∀ i, (demoEnv (fun _ => true) (fun _ => 'n') [demoGrasp] (fun _ => false)
        (fun _ => true)).cin i = 'n') ∧
    failures (run (interactive demoData)
        (demoEnv (fun _ => true) (fun _ => 'n') [demoGrasp] (fun _ => false) (fun _ => true))
        (startBlocks demoData
          (demoEnv (fun _ => true) (fun _ => 'n') [demoGrasp] (fun _ => false) (fun _ => true)))
        (2 * (startBlocks demoData
          (demoEnv (fun _ => true) (fun _ => 'n') [demoGrasp] (fun _ => false)
            (fun _ => true))).length + 6 + 0) ⟨PC.start, World.init⟩).w.trace ≤ 1 :=
  ⟨rfl, fun _ => rfl,
    (all_no_run_ends (interactive demoData)
      (demoEnv (fun _ => true) (fun _ => 'n') [demoGrasp] (fun _ => false) (fun _ => true))
      (startBlocks demoData
        (demoEnv (fun _ => true) (fun _ => 'n') [demoGrasp] (fun _ => false) (fun _ => true)))
      0 rfl (fun _ => rfl)).2.1⟩

end baxter_pick_place
